import Mathlib

/-!
# Verification of the medieval-rts-server tick / delta engine

Shallow embedding of the authoritative game server:
* `Shooter` embeds `src/server.js` (3D x/z arena, movement, shoot,
  bullet collision, delta broadcast).
* `Arena` embeds the ability-oriented variant in `src/unnamed/part_003`
  (cooldown timers, dash, melee sword arc).

JavaScript numbers are modelled as exact rationals extended with `nan`,
`inf` and `ninf` (floating-point rounding is not modelled; every claim
below concerns exact arithmetic, NaN propagation and comparison
semantics, none of which depend on rounding).  Negative zero is not
modelled; no code path below distinguishes it.
-/

/-- A JavaScript number: NaN, +Infinity, -Infinity, or a finite value
    modelled as an exact rational. -/
inductive JsNum : Type where
  | nan : JsNum
  | inf : JsNum
  | ninf : JsNum
  | num : ℚ → JsNum
deriving DecidableEq

/-- JS unary minus. -/
def jsNeg : JsNum → JsNum
  | .nan => .nan
  | .inf => .ninf
  | .ninf => .inf
  | .num q => .num (-q)

/-- JS addition: NaN absorbs; `Infinity + -Infinity` is NaN. -/
def jsAdd : JsNum → JsNum → JsNum
  | .nan, _ => .nan
  | _, .nan => .nan
  | .inf, .ninf => .nan
  | .ninf, .inf => .nan
  | .inf, _ => .inf
  | _, .inf => .inf
  | .ninf, _ => .ninf
  | _, .ninf => .ninf
  | .num a, .num b => .num (a + b)

/-- JS subtraction `a - b`, i.e. `a + (-b)`. -/
def jsSub (a b : JsNum) : JsNum := jsAdd a (jsNeg b)

/-- JS multiplication: NaN absorbs; `Infinity * 0` is NaN. -/
def jsMul : JsNum → JsNum → JsNum
  | .nan, _ => .nan
  | _, .nan => .nan
  | .inf, .inf => .inf
  | .inf, .ninf => .ninf
  | .ninf, .inf => .ninf
  | .ninf, .ninf => .inf
  | .inf, .num b => if b = 0 then .nan else if 0 < b then .inf else .ninf
  | .num a, .inf => if a = 0 then .nan else if 0 < a then .inf else .ninf
  | .ninf, .num b => if b = 0 then .nan else if 0 < b then .ninf else .inf
  | .num a, .ninf => if a = 0 then .nan else if 0 < a then .ninf else .inf
  | .num a, .num b => .num (a * b)

/-- JS division.  `0/0` is NaN, `a/0` for `a ≠ 0` is a signed infinity
    (the denominator is treated as `+0`; negative zero is not modelled
    and never produced by the code under verification). -/
def jsDiv : JsNum → JsNum → JsNum
  | .nan, _ => .nan
  | _, .nan => .nan
  | .inf, .inf => .nan
  | .inf, .ninf => .nan
  | .ninf, .inf => .nan
  | .ninf, .ninf => .nan
  | .inf, .num b => if 0 ≤ b then .inf else .ninf
  | .ninf, .num b => if 0 ≤ b then .ninf else .inf
  | .num _, .inf => .num 0
  | .num _, .ninf => .num 0
  | .num a, .num b =>
      if b = 0 then (if a = 0 then .nan else if 0 < a then .inf else .ninf)
      else .num (a / b)

/-- JS `<` comparison: any comparison involving NaN is false. -/
def jsLt : JsNum → JsNum → Bool
  | .nan, _ => false
  | _, .nan => false
  | .inf, _ => false
  | .ninf, .ninf => false
  | .ninf, _ => true
  | .num _, .inf => true
  | .num _, .ninf => false
  | .num a, .num b => decide (a < b)

/-- JS `Math.min`: NaN if either argument is NaN. -/
def jsMin : JsNum → JsNum → JsNum
  | .nan, _ => .nan
  | _, .nan => .nan
  | a, b => if jsLt b a then b else a

/-- JS `Math.max`: NaN if either argument is NaN. -/
def jsMax : JsNum → JsNum → JsNum
  | .nan, _ => .nan
  | _, .nan => .nan
  | a, b => if jsLt a b then b else a

/-- Rational square root helper: exact on 0 and on perfect squares
    (numerator and denominator both perfect squares).  `Math.sqrt` of
    any other positive rational is irrational, so no rational-valued
    model can be exact there; no theorem in this development depends on
    those cases (the only square root whose *value* flows onward in the
    source is the magnitude of the aim vector, and every theorem below
    evaluates it at 0). -/
def ratSqrt (q : ℚ) : ℚ := mkRat (Nat.sqrt q.num.toNat) (Nat.sqrt q.den)

/-- JS `Math.sqrt`: NaN on negative input and NaN, `Infinity` on
    `Infinity`. -/
def jsSqrt : JsNum → JsNum
  | .nan => .nan
  | .inf => .inf
  | .ninf => .nan
  | .num q => if q < 0 then .nan else .num (ratSqrt q)

/-- Exact encoding of the comparison `Math.sqrt x < r`.  For finite
    `x ≥ 0` and finite `r`, real-number square root satisfies
    `Real.sqrt x < r ↔ 0 < r ∧ x < r * r`; for `x < 0` the square root
    is NaN and the comparison is false; NaN anywhere makes it false.
    The source only ever compares a square root against a constant, so
    this encoding is exact where `ratSqrt` is not. -/
def jsSqrtLt : JsNum → JsNum → Bool
  | .num x, .num r => decide (0 ≤ x) && decide (0 < r) && decide (x < r * r)
  | .num x, .inf => decide (0 ≤ x)
  | _, _ => false

/-- The value stored in `player.inputs` by the `'inputs'` socket
    handler.  The handler stores the client payload verbatim.
    `nullish` models `null`/`undefined` (reading `.w` from it throws a
    TypeError); `val` models any other JS value, carrying the
    truthiness of its `.w`/`.a`/`.s`/`.d` properties (absent properties
    read as `undefined`, i.e. false). -/
inductive JsInputs : Type where
  | nullish : JsInputs
  | val (w a s d : Bool) : JsInputs
deriving DecidableEq

namespace Shooter

/-! ## Embedding of `src/server.js` -/

/-- Game constants from `src/server.js` lines 22–28. -/
def PLAYER_SPEED : ℚ := 1/10
def PLAYER_RADIUS : ℚ := 1/2
def PLAYER_MAX_HP : ℚ := 100
def BULLET_SPEED : ℚ := 3/10
def BULLET_RADIUS : ℚ := 1/10
def BULLET_DAMAGE : ℚ := 10
def MAP_SIZE : ℚ := 25

/-- A player record (`newPlayer` object, `src/server.js` lines 132–140).
    `hp`, `maxHp` and `color` are only ever finite in every code path,
    so they are carried as plain rationals. -/
structure PlayerS where
  id : String
  x : JsNum
  z : JsNum
  color : ℚ
  hp : ℚ
  maxHp : ℚ
  inputs : JsInputs
deriving DecidableEq

/-- A bullet record (`bullet` object, `src/server.js` lines 169–177). -/
structure BulletS where
  ownerId : String
  x : JsNum
  z : JsNum
  dx : JsNum
  dz : JsNum
  color : ℚ
deriving DecidableEq

/-- The module-level mutable state of `src/server.js`: `gameState`
    (players, bullets), the delta trackers `newPlayers` /
    `removedPlayers`, and `bulletIdCounter`.  JS object maps are
    modelled as association lists in key-insertion order, which is the
    `for…in` iteration order for the string keys of `players`; for
    `bullets` the keys are the integer-like strings of a monotonically
    increasing counter, so ascending-numeric iteration order coincides
    with insertion order. -/
structure ServerState where
  players : List (String × PlayerS)
  bullets : List (Nat × BulletS)
  newPlayers : List (String × PlayerS)
  removedPlayers : List String
  bulletIdCounter : Nat
deriving DecidableEq

/-- The per-tick broadcast delta (`src/server.js` lines 112–117).
    `updates` holds the key set of `playerUpdates`; the values stored
    there are live references into `gameState.players`, so at emit time
    they denote the post-tick player records and only the key set is
    informative. -/
structure DeltaS where
  updates : List String
  newIds : List (String × PlayerS)
  removed : List String
  bullets : List (Nat × BulletS)
deriving DecidableEq

/-- Clamp a coordinate into the arena:
    `Math.max(-MAP_SIZE, Math.min(MAP_SIZE, v))`. -/
def clampMap (v : JsNum) : JsNum :=
  jsMax (.num (-MAP_SIZE)) (jsMin (.num MAP_SIZE) v)

/-- One player's movement (`src/server.js` lines 54–65), given the
    truthiness of the four input flags: displace along each active
    axis, then clamp both coordinates — but only if some flag was set
    (`hasMoved`). -/
def movePlayer (p : PlayerS) (w a s d : Bool) : PlayerS × Bool :=
  let z1 := if w then jsSub p.z (.num PLAYER_SPEED) else p.z
  let z2 := if s then jsAdd z1 (.num PLAYER_SPEED) else z1
  let x1 := if a then jsSub p.x (.num PLAYER_SPEED) else p.x
  let x2 := if d then jsAdd x1 (.num PLAYER_SPEED) else x1
  let moved := w || s || a || d
  if moved then ({ p with x := clampMap x2, z := clampMap z2 }, true)
  else (p, false)

/-- Step 1 of the tick (`src/server.js` lines 51–66): for each player in
    iteration order, read `player.inputs` — a TypeError (modelled as
    `.error ()`) if a client stored `null` there — and apply movement.
    Returns the updated player list and the key list of
    `playerUpdates` entries added by this step.  The thrown TypeError
    is uncaught in the source: it aborts the whole tick (the remaining
    players, the bullet passes and the broadcast never run; the
    in-place mutations already made before the throw survive but no
    delta is emitted). -/
def moveStep : List (String × PlayerS) → Except Unit (List (String × PlayerS) × List String)
  | [] => .ok ([], [])
  | (pid, p) :: rest =>
    match p.inputs with
    | .nullish => .error ()
    | .val w a s d =>
      let r := movePlayer p w a s d
      match moveStep rest with
      | .error e => .error e
      | .ok (ps, upd) => .ok ((pid, r.1) :: ps, if r.2 then pid :: upd else upd)

/-- The `hasMoved` flag of the movement step, as a function of the
    stored inputs: true iff at least one of the four truthiness-read
    movement flags is set.  (Formalization helper used to state when a
    player is recorded in `playerUpdates`.) -/
def hasIntent (p : PlayerS) : Bool :=
  match p.inputs with
  | .nullish => false
  | .val w a s d => w || s || a || d

/-- The single-player result of the movement step (formalization helper
    for stating `moveStep` pointwise; on a `nullish` input the step
    throws instead, so the value returned here is never used). -/
def moveOne (p : PlayerS) : PlayerS :=
  match p.inputs with
  | .nullish => p
  | .val w a s d => (movePlayer p w a s d).1

/-- Advance one bullet (`src/server.js` lines 72–73). -/
def moveBullet (b : BulletS) : BulletS :=
  { b with x := jsAdd b.x (jsMul b.dx (.num BULLET_SPEED)),
           z := jsAdd b.z (jsMul b.dz (.num BULLET_SPEED)) }

/-- Out-of-bounds test (`src/server.js` line 75):
    `bullet.x > MAP_SIZE || bullet.x < -MAP_SIZE || bullet.z > MAP_SIZE || bullet.z < -MAP_SIZE`. -/
def oobBullet (b : BulletS) : Bool :=
  jsLt (.num MAP_SIZE) b.x || jsLt b.x (.num (-MAP_SIZE)) ||
  jsLt (.num MAP_SIZE) b.z || jsLt b.z (.num (-MAP_SIZE))

/-- Step 2 of the tick (`src/server.js` lines 69–78): move every bullet
    and collect the ids that are now out of bounds. -/
def moveBullets : List (Nat × BulletS) → List (Nat × BulletS) × List Nat
  | [] => ([], [])
  | (i, b) :: rest =>
    let b' := moveBullet b
    let r := moveBullets rest
    ((i, b') :: r.1, if oobBullet b' then i :: r.2 else r.2)

/-- Damage application and in-tick respawn (`src/server.js` lines
    91–98): subtract `BULLET_DAMAGE`; if hp dropped to ≤ 0, reset hp to
    `PLAYER_MAX_HP` and move to `(Math.random()-0.5)*20` on both axes.
    `rand` is the stream of `Math.random()` draws, `k` the index of the
    next unconsumed draw. -/
def damagePlayer (p : PlayerS) (rand : ℕ → ℚ) (k : ℕ) : PlayerS × ℕ :=
  let p1 := { p with hp := p.hp - BULLET_DAMAGE }
  if p1.hp ≤ 0 then
    ({ p1 with hp := PLAYER_MAX_HP,
               x := .num ((rand k - 1/2) * 20),
               z := .num ((rand (k+1) - 1/2) * 20) }, k + 2)
  else (p1, k)

/-- The inner player loop of the collision pass (`src/server.js` lines
    85–103): walk the players in iteration order, skip the bullet's
    owner, and on the first player whose centre is within
    `PLAYER_RADIUS + BULLET_RADIUS` of the bullet (the source compares
    `Math.sqrt(dist2) < r`, encoded exactly by `jsSqrtLt`) apply damage
    and `break`.  Returns the updated players, the id of the player hit
    (if any), and the next random index. -/
def hitScan (ownerId : String) (b : BulletS) (rand : ℕ → ℚ) (k : ℕ) :
    List (String × PlayerS) → List (String × PlayerS) × Option String × ℕ
  | [] => ([], none, k)
  | (pid, p) :: rest =>
    if pid = ownerId then
      let r := hitScan ownerId b rand k rest
      ((pid, p) :: r.1, r.2.1, r.2.2)
    else
      let d2 := jsAdd (jsMul (jsSub b.x p.x) (jsSub b.x p.x))
                      (jsMul (jsSub b.z p.z) (jsSub b.z p.z))
      if jsSqrtLt d2 (.num (PLAYER_RADIUS + BULLET_RADIUS)) then
        let r := damagePlayer p rand k
        ((pid, r.1) :: rest, some pid, r.2)
      else
        let r := hitScan ownerId b rand k rest
        ((pid, p) :: r.1, r.2.1, r.2.2)

/-- Insert a key into the `playerUpdates` key set, JS-object style: an
    assignment to an existing key overwrites the value but does not add
    or reorder a key. -/
def addKey (l : List String) (x : String) : List String :=
  if x ∈ l then l else l ++ [x]

/-- Step 3 of the tick (`src/server.js` lines 81–104): for each bullet
    in iteration order, skip it if already flagged for removal
    (`removedBullets.includes`), otherwise scan the players; on a hit,
    push the bullet id onto `removedBullets` and record the victim in
    `playerUpdates`.  Returns the players, the final `removedBullets`,
    the `playerUpdates` key set, and the next random index. -/
def collidePass (rand : ℕ → ℚ) :
    List (Nat × BulletS) → List (String × PlayerS) → List Nat → List String → ℕ →
    List (String × PlayerS) × List Nat × List String × ℕ
  | [], ps, rem, upd, k => (ps, rem, upd, k)
  | (i, b) :: rest, ps, rem, upd, k =>
    if i ∈ rem then collidePass rand rest ps rem upd k
    else
      let r := hitScan b.ownerId b rand k ps
      match r.2.1 with
      | none => collidePass rand rest r.1 rem upd r.2.2
      | some pid => collidePass rand rest r.1 (rem ++ [i]) (addKey upd pid) r.2.2

/-- One full tick of `gameLoop` (`src/server.js` lines 46–123):
    movement, bullet advance + out-of-bounds flagging, collision pass,
    cleanup of flagged bullets, delta construction, tracker reset.  An
    uncaught TypeError from the movement step aborts the tick. -/
def gameLoopE (s : ServerState) (rand : ℕ → ℚ) : Except Unit (DeltaS × ServerState) :=
  match moveStep s.players with
  | .error e => .error e
  | .ok (ps1, updMove) =>
    let mb := moveBullets s.bullets
    let c := collidePass rand mb.1 ps1 mb.2 updMove 0
    let bsFinal := mb.1.filter (fun ib => decide (ib.1 ∉ c.2.1))
    let delta : DeltaS :=
      { updates := c.2.2.1, newIds := s.newPlayers,
        removed := s.removedPlayers, bullets := bsFinal }
    .ok (delta, { s with players := c.1, bullets := bsFinal,
                         newPlayers := [], removedPlayers := [] })

/-- The connection handler (`src/server.js` lines 128–145): create a
    player at a random position, add it to `gameState.players` and to
    the `newPlayers` tracker.  `rx`, `rz`, `rc` are the three
    `Math.random()` draws. -/
def connectH (s : ServerState) (sid : String) (rx rz rc : ℚ) : ServerState :=
  let p : PlayerS :=
    { id := sid, x := .num ((rx - 1/2) * 20), z := .num ((rz - 1/2) * 20),
      color := rc * 16777215, hp := PLAYER_MAX_HP, maxHp := PLAYER_MAX_HP,
      inputs := .val false false false false }
  { s with players := s.players ++ [(sid, p)],
           newPlayers := s.newPlayers ++ [(sid, p)] }

/-- The `'inputs'` handler (`src/server.js` lines 148–153): if the
    player exists, store the client payload verbatim into
    `player.inputs` — including `null`. -/
def inputsH (s : ServerState) (sid : String) (v : JsInputs) : ServerState :=
  { s with players :=
      s.players.map (fun ip => if ip.1 = sid then (ip.1, { ip.2 with inputs := v }) else ip) }

/-- The `'shoot'` handler (`src/server.js` lines 156–179): refuse if the
    player is absent or dead; otherwise build a bullet at the
    client-supplied start whose direction is the aim vector divided by
    its magnitude — with no guard against zero magnitude. -/
def shootH (s : ServerState) (sid : String)
    (startX startZ targetX targetZ : JsNum) : ServerState :=
  match s.players.lookup sid with
  | none => s
  | some p =>
    if p.hp ≤ 0 then s
    else
      let dx := jsSub targetX startX
      let dz := jsSub targetZ startZ
      let mag := jsSqrt (jsAdd (jsMul dx dx) (jsMul dz dz))
      let b : BulletS :=
        { ownerId := sid, x := startX, z := startZ,
          dx := jsDiv dx mag, dz := jsDiv dz mag, color := p.color }
      { s with bullets := s.bullets ++ [(s.bulletIdCounter, b)],
               bulletIdCounter := s.bulletIdCounter + 1 }

/-- The disconnect handler (`src/server.js` lines 182–186): push the id
    onto `removedPlayers` and delete the player from
    `gameState.players`.  Nothing deletes the id from the `newPlayers`
    tracker. -/
def disconnectH (s : ServerState) (sid : String) : ServerState :=
  { s with removedPlayers := s.removedPlayers ++ [sid],
           players := s.players.filter (fun ip => decide (ip.1 ≠ sid)) }

/-- Run `n` consecutive ticks; `rands j` is tick `j`'s stream of
    `Math.random()` draws. -/
def runTicksE (s : ServerState) (rands : ℕ → ℕ → ℚ) : ℕ → Except Unit ServerState
  | 0 => .ok s
  | n+1 =>
    match runTicksE s rands n with
    | .error e => .error e
    | .ok sn =>
      match gameLoopE sn (rands n) with
      | .error e => .error e
      | .ok r => .ok r.2

/-- A coordinate that is a finite number within the arena bounds. -/
def inArena (v : JsNum) : Prop := ∃ q : ℚ, v = .num q ∧ -MAP_SIZE ≤ q ∧ q ≤ MAP_SIZE

/-- The per-player state invariant of the spec (§3/§8), as maintained
    by the code: finite in-bounds position, `0 < hp ≤ maxHp`, and the
    constant `maxHp = 100`. -/
def PlayerInv (p : PlayerS) : Prop :=
  inArena p.x ∧ inArena p.z ∧ 0 < p.hp ∧ p.hp ≤ p.maxHp ∧ p.maxHp = PLAYER_MAX_HP

end Shooter

namespace Arena

/-! ## Embedding of `src/unnamed/part_003`

The ability-oriented 2D variant: cooldown timers, the dash ability and
the melee (sword) arc.  The claims settled against this file (timer
arithmetic, the dash handler's scoping error, the sword hit test)
concern finite-valued states only, so numeric fields are carried as
plain rationals; NaN propagation is analysed on the `Shooter`
embedding. -/

/-- Game constants from `src/unnamed/part_003` lines 19–40. -/
def MAP_WIDTH : ℚ := 800
def MAP_HEIGHT : ℚ := 600
def PLAYER_RADIUS : ℚ := 10
def PLAYER_MAX_HP : ℚ := 100
def PLAYER_SPEED : ℚ := 2
def DASH_SPEED : ℚ := 8
def DASH_DURATION : ℚ := 1/5
def DASH_COOLDOWN : ℚ := 3
def GUN_COOLDOWN : ℚ := 3/10
def MELEE_DAMAGE : ℚ := 25
def MELEE_RANGE : ℚ := 25
/-- `MELEE_ARC = Math.PI / 2` (a 90-degree arc). -/
noncomputable def MELEE_ARC : ℝ := Real.pi / 2
def MELEE_COOLDOWN : ℚ := 4/5
/-- `TICK_RATE = 1000 / 60`, milliseconds per tick. -/
def TICK_RATE : ℚ := 1000 / 60
/-- The per-tick time step used by every timer decrement:
    `TICK_RATE / 1000`. -/
def dtick : ℚ := TICK_RATE / 1000

/-- A player record (`newPlayer` object, `src/unnamed/part_003` lines
    159–174). -/
structure Player2 where
  id : String
  x : ℚ
  y : ℚ
  targetX : ℚ
  targetY : ℚ
  color : ℚ
  hp : ℚ
  maxHp : ℚ
  inputs : JsInputs
  isDashing : Bool
  dashTimer : ℚ
  dashCooldown : ℚ
  gunCooldown : ℚ
  meleeCooldown : ℚ
deriving DecidableEq

/-- The cooldown/dash-state section of `gameLoop`
    (`src/unnamed/part_003` lines 60–77), for one player: tick each
    positive cooldown down by `dtick` (with no clamping), and while
    dashing tick the dash timer down, clearing `isDashing` once it
    reaches ≤ 0.  The returned flag is the loop's `stateChanged`. -/
def tickTimers (p : Player2) : Player2 × Bool :=
  let p1 := if p.dashCooldown > 0 then { p with dashCooldown := p.dashCooldown - dtick } else p
  let p2 := if p1.gunCooldown > 0 then { p1 with gunCooldown := p1.gunCooldown - dtick } else p1
  let p3 := if p2.meleeCooldown > 0 then { p2 with meleeCooldown := p2.meleeCooldown - dtick } else p2
  if p3.isDashing then
    let p4 := { p3 with dashTimer := p3.dashTimer - dtick }
    if p4.dashTimer ≤ 0 then ({ p4 with isDashing := false }, true) else (p4, false)
  else (p3, false)

/-- The `'dash'` handler (`src/unnamed/part_003` lines 205–214).  When
    the player exists and its dash cooldown is ≤ 0, the handler first
    mutates the player (`isDashing = true`, `dashTimer =
    DASH_DURATION`, `dashCooldown = DASH_COOLDOWN`) and then executes
    `playerUpdates[player.id] = player`.  `playerUpdates` is a `let`
    local of `gameLoop` (line 58) and is not in scope in the connection
    handler, so that read of an undeclared identifier throws a
    ReferenceError — after the mutations have already been applied.
    The returned flag records whether the ReferenceError was thrown. -/
def dashH (ps : List (String × Player2)) (sid : String) : List (String × Player2) × Bool :=
  match ps.lookup sid with
  | none => (ps, false)
  | some p =>
    if p.dashCooldown ≤ 0 then
      (ps.map (fun ip =>
        if ip.1 = sid then
          (ip.1, { ip.2 with isDashing := true, dashTimer := DASH_DURATION,
                             dashCooldown := DASH_COOLDOWN })
        else ip), true)
    else (ps, false)

/-- `Math.atan2(y, x)`, modelled as the argument of the complex number
    `x + y·i`, which is the mathematical atan2 with range `(-π, π]`. -/
noncomputable def jsAtan2 (y x : ℚ) : ℝ := Complex.arg ⟨(x : ℝ), (y : ℝ)⟩

/-- The angle-difference normalization of `src/unnamed/part_003` lines
    261–262: `while (angleDiff > π) angleDiff -= 2π; while (angleDiff <
    -π) angleDiff += 2π`.  The input is always a difference of two
    `jsAtan2` results, each in `(-π, π]`, so it lies in `(-2π, 2π)` and
    each loop runs at most once; a single conditional step per
    direction is therefore exactly the loop. -/
noncomputable def normAngle (a : ℝ) : ℝ :=
  if a > Real.pi then a - 2 * Real.pi
  else if a < -Real.pi then a + 2 * Real.pi
  else a

/-- The body of the sword hit loop for one candidate target
    (`src/unnamed/part_003` lines 252–273): range test, arc test,
    damage, in-place respawn to the map centre on death.  The source
    compares `Math.sqrt(d2) < PLAYER_RADIUS + MELEE_RANGE`; both sides
    are non-negative and the bound is the positive constant 35, so the
    comparison is encoded exactly as `d2 < 35^2`. -/
noncomputable def swordStrikeTarget (attacker : Player2) (faceAngle : ℝ) (t : Player2) : Player2 :=
  let d2 : ℚ := (t.x - attacker.x)^2 + (t.y - attacker.y)^2
  if d2 < (PLAYER_RADIUS + MELEE_RANGE)^2 then
    let angleToTarget := jsAtan2 (t.y - attacker.y) (t.x - attacker.x)
    let angleDiff := normAngle (faceAngle - angleToTarget)
    if |angleDiff| < MELEE_ARC / 2 then
      let t1 := { t with hp := t.hp - MELEE_DAMAGE }
      if t1.hp ≤ 0 then
        { t1 with hp := PLAYER_MAX_HP, x := MAP_WIDTH / 2, y := MAP_HEIGHT / 2 }
      else t1
    else t
  else t

/-- The sword branch of the `'attack'` handler (`src/unnamed/part_003`
    lines 240–276): if the attacker exists and its melee cooldown is
    ≤ 0, reset the cooldown, compute the facing angle from the last
    mouse position, and test every *other* player against the range and
    arc predicates, damaging each player that passes both.  Each
    target's outcome depends only on the (cooldown-updated) attacker
    and that target, so the in-place loop is a pointwise map. -/
noncomputable def swordAttackH (ps : List (String × Player2)) (sid : String) :
    List (String × Player2) :=
  match ps.lookup sid with
  | none => ps
  | some player =>
    if player.meleeCooldown ≤ 0 then
      let player1 := { player with meleeCooldown := MELEE_COOLDOWN }
      let faceAngle := jsAtan2 (player1.targetY - player1.y) (player1.targetX - player1.x)
      ps.map (fun ip =>
        if ip.1 = sid then (ip.1, player1)
        else (ip.1, swordStrikeTarget player1 faceAngle ip.2))
    else ps

/-- The exact hit condition of the sword branch's nested tests
    (formalization helper): strictly within `PLAYER_RADIUS +
    MELEE_RANGE` (squared-distance encoding of the `Math.sqrt`
    comparison) *and* normalized angular difference strictly inside
    half the arc. -/
noncomputable def meleeHitCond (a t : Player2) : Prop :=
  (t.x - a.x)^2 + (t.y - a.y)^2 < (PLAYER_RADIUS + MELEE_RANGE)^2 ∧
  |normAngle (jsAtan2 (a.targetY - a.y) (a.targetX - a.x) -
    jsAtan2 (t.y - a.y) (t.x - a.x))| < MELEE_ARC / 2

end Arena

/-! ## Concrete fixtures used by witnesses and counterexamples -/

/-- A player whose `'inputs'` handler stored a `null` payload. -/
def fxNullInputs : Shooter.PlayerS :=
  { id := "P", x := .num 0, z := .num 0, color := 0, hp := 100, maxHp := 100,
    inputs := .nullish }

/-- An idle player with well-formed (all-false) input flags. -/
def fxIdle : Shooter.PlayerS :=
  { id := "Q", x := .num 1, z := .num 1, color := 0, hp := 100, maxHp := 100,
    inputs := .val false false false false }

/-- The empty server state. -/
def fxEmpty : Shooter.ServerState :=
  { players := [], bullets := [], newPlayers := [], removedPlayers := [],
    bulletIdCounter := 0 }

/-- A server state holding only the idle player `"Q"`. -/
def fxIdleState : Shooter.ServerState :=
  { fxEmpty with players := [("Q", fxIdle)] }

/-- A player pressed against the western arena wall (`x = -MAP_SIZE`)
    holding only the `a` (west) movement flag. -/
def fxWallPlayer : Shooter.PlayerS :=
  { id := "P", x := .num (-25), z := .num 0, color := 0, hp := 100, maxHp := 100,
    inputs := .val false true false false }

/-- A player at `(5, 5)` with 10 hp, about to be hit. -/
def fxLowHp : Shooter.PlayerS :=
  { id := "P", x := .num 5, z := .num 5, color := 0, hp := 10, maxHp := 100,
    inputs := .val false false false false }

/-- A bullet that reaches `(5, 5)` — `fxLowHp`'s position — after this
    tick's movement. -/
def fxBulletA : Shooter.BulletS :=
  { ownerId := "Q", x := .num (47/10), z := .num 5, dx := .num 1, dz := .num 0,
    color := 0 }

/-- A bullet that reaches `(0, 0)` — the respawn point under the random
    draw 1/2 — after this tick's movement. -/
def fxBulletB : Shooter.BulletS :=
  { ownerId := "Q", x := .num (3/10), z := .num 0, dx := .num (-1), dz := .num 0,
    color := 0 }

/-- A bullet with NaN direction, as produced by a zero-magnitude shoot. -/
def fxNanBullet : Shooter.BulletS :=
  { ownerId := "Q", x := .num 1, z := .num 2, dx := .nan, dz := .nan, color := 0 }

/-- An `Arena` player with every numeric field zeroed. -/
def fxArenaBase : Arena.Player2 :=
  { id := "A", x := 400, y := 300, targetX := 400, targetY := 300, color := 0,
    hp := 100, maxHp := 100, inputs := .val false false false false,
    isDashing := false, dashTimer := 0, dashCooldown := 0, gunCooldown := 0,
    meleeCooldown := 0 }

/-- An `Arena` player whose dash cooldown is a positive value that is
    *not* a multiple of the tick step (1/120 = dtick/2). -/
def fxHalfStep : Arena.Player2 := { fxArenaBase with dashCooldown := 1/120 }

/-- An `Arena` player mid-dash with every timer on a multiple of the
    tick step: dash cooldown 3 = 180·dtick, gun 3/10 = 18·dtick, melee
    4/5 = 48·dtick, dash timer 1/5 = 12·dtick. -/
def fxDashing : Arena.Player2 :=
  { fxArenaBase with isDashing := true, dashTimer := 1/5, dashCooldown := 3,
                     gunCooldown := 3/10, meleeCooldown := 4/5 }

/-- A melee attacker at `(100, 100)` aiming at `(135, 100)`, melee off
    cooldown. -/
def fxSwordAttacker : Arena.Player2 :=
  { fxArenaBase with id := "A", x := 100, y := 100, targetX := 135, targetY := 100 }

/-- A melee target at `(135, 100)`: distance to `fxSwordAttacker` is
    exactly `PLAYER_RADIUS + MELEE_RANGE = 35`, dead ahead of its
    facing. -/
def fxSwordBoundary : Arena.Player2 :=
  { fxArenaBase with id := "B", x := 135, y := 100 }

/-- A melee target at `(120, 100)`: distance 20 < 35, dead ahead when
    the attacker aims at `(120, 100)`. -/
def fxSwordNear : Arena.Player2 :=
  { fxArenaBase with id := "B", x := 120, y := 100 }

/-- One low-hp player facing one incoming bullet. -/
def fxOneBulletState : Shooter.ServerState :=
  { fxEmpty with players := [("P", fxLowHp)], bullets := [(0, fxBulletA)] }

/-- One low-hp player facing two incoming bullets: the second reaches
    the respawn point. -/
def fxTwoBulletState : Shooter.ServerState :=
  { fxEmpty with players := [("P", fxLowHp)], bullets := [(0, fxBulletA), (1, fxBulletB)] }

/-- The expected end-of-tick record of `"P"` when only bullet 0 hits:
    death, respawn at the centre, full hp. -/
def fxRespawned : Shooter.PlayerS :=
  { id := "P", x := .num 0, z := .num 0, color := 0, hp := 100, maxHp := 100, inputs := .val false false false false }

/-- The expected end-of-tick record of `"P"` when bullet 1 also hits
    the freshly respawned player: hp 90, not maxHp. -/
def fxRespawnedHit : Shooter.PlayerS :=
  { fxRespawned with hp := 90 }

/-- One idle player plus one NaN-direction bullet under key 7. -/
def fxNanState : Shooter.ServerState :=
  { fxEmpty with players := [("Q", fxIdle)], bullets := [(7, fxNanBullet)] }

/-! ## Shared helper lemmas -/

/-! Evaluation lemmas for the JsNum operations.  `Rat` arithmetic is
irreducible in this toolchain, so concrete runs of the embedded code
are evaluated by `simp`/`norm_num` through these lemmas rather than by
kernel reduction. -/

@[simp] theorem jsNeg_num (a : ℚ) : jsNeg (.num a) = .num (-a) := rfl

@[simp] theorem jsAdd_num (a b : ℚ) : jsAdd (.num a) (.num b) = .num (a + b) := rfl

@[simp] theorem jsSub_num (a b : ℚ) : jsSub (.num a) (.num b) = .num (a - b) := by
  simp [jsSub, sub_eq_add_neg]

@[simp] theorem jsMul_num (a b : ℚ) : jsMul (.num a) (.num b) = .num (a * b) := rfl

@[simp] theorem jsDiv_num (a b : ℚ) :
    jsDiv (.num a) (.num b) =
      if b = 0 then (if a = 0 then .nan else if 0 < a then .inf else .ninf)
      else .num (a / b) := rfl

@[simp] theorem jsLt_num (a b : ℚ) : jsLt (.num a) (.num b) = decide (a < b) := rfl

@[simp] theorem jsMin_num (a b : ℚ) :
    jsMin (.num a) (.num b) = .num (if b < a then b else a) := by
  by_cases h : b < a <;> simp [jsMin, jsLt, h]

@[simp] theorem jsMax_num (a b : ℚ) :
    jsMax (.num a) (.num b) = .num (if a < b then b else a) := by
  by_cases h : a < b <;> simp [jsMax, jsLt, h]

@[simp] theorem jsSqrt_num (q : ℚ) :
    jsSqrt (.num q) = if q < 0 then .nan else .num (ratSqrt q) := rfl

@[simp] theorem ratSqrt_zero : ratSqrt 0 = 0 := rfl

@[simp] theorem jsSqrtLt_num (x r : ℚ) :
    jsSqrtLt (.num x) (.num r) =
      (decide (0 ≤ x) && decide (0 < r) && decide (x < r * r)) := rfl

@[simp] theorem jsAdd_nan_right (a : JsNum) : jsAdd a .nan = .nan := by
  cases a <;> rfl

@[simp] theorem jsAdd_nan_left (a : JsNum) : jsAdd .nan a = .nan := by
  cases a <;> rfl

@[simp] theorem jsMul_nan_left (a : JsNum) : jsMul .nan a = .nan := by
  cases a <;> rfl

@[simp] theorem jsMul_nan_right (a : JsNum) : jsMul a .nan = .nan := by
  cases a <;> rfl

@[simp] theorem jsSub_nan_left (a : JsNum) : jsSub .nan a = .nan := by
  cases a <;> rfl

@[simp] theorem jsSub_nan_right (a : JsNum) : jsSub a .nan = .nan := by
  cases a <;> rfl

@[simp] theorem jsLt_nan_left (a : JsNum) : jsLt .nan a = false := by
  cases a <;> rfl

@[simp] theorem jsLt_nan_right (a : JsNum) : jsLt a .nan = false := by
  cases a <;> rfl

@[simp] theorem jsSqrtLt_nan_left (r : JsNum) : jsSqrtLt .nan r = false := by
  cases r <;> rfl

/-- Looking up a key after a pointwise conditional update of that key. -/
theorem lookup_map_ite {α : Type} (ps : List (String × α)) (sid : String) (f : α → α) :
    (ps.map (fun ip => if ip.1 = sid then (ip.1, f ip.2) else ip)).lookup sid =
      (ps.lookup sid).map f := by
  induction ps with
  | nil => rfl
  | cons hd tl ih =>
    obtain ⟨k, v⟩ := hd
    by_cases h : k = sid
    · subst h
      simp [List.lookup_cons]
    · simp [List.lookup_cons, h, beq_false_of_ne (Ne.symm h), ih]

/-! ## Claims -/

/-- **C1** — the claim that no malformed inbound payload can abort the
    tick is false on the code: the `'inputs'` handler stores a `null`
    payload verbatim into `player.inputs`, and the next `gameLoop`
    reads `inputs.w` from it, raising an uncaught TypeError that aborts
    the whole tick (no movement, clamping, collision or removal work
    happens for any other entity and no delta is broadcast).  Here the
    tick aborts even though a second, perfectly well-formed player is
    present. -/
theorem c1_null_inputs_abort_tick :
    Shooter.gameLoopE
      { fxEmpty with players := [("P", fxNullInputs), ("Q", fxIdle)] }
      (fun _ => 1/2) = .error () := rfl

/-- **C2** — the claim is false on the code: a connect followed by a
    disconnect before any broadcast leaves the identity in *both* the
    `new` and the `removed` sets of the next delta, because the
    disconnect handler deletes the player from `gameState.players` but
    never from the `newPlayers` tracker. -/
theorem c2_join_leave_ghost :
    ∃ d s', Shooter.gameLoopE
        (Shooter.disconnectH (Shooter.connectH fxEmpty "P" (1/2) (1/2) (1/2)) "P")
        (fun _ => 1/2) = .ok (d, s') ∧
      d.newIds.map Prod.fst = ["P"] ∧ d.removed = ["P"] :=
  ⟨_, _, rfl, rfl, rfl⟩

/-- **C3** — the claim is false on the code: a `'shoot'` whose origin
    equals its target is *not* rejected.  The direction is computed as
    `0 / Math.sqrt(0) = 0/0 = NaN` on both axes and the bullet is
    inserted into the world, so the bullet collection changes and the
    created projectile's direction is NaN rather than unit length. -/
theorem c3_zero_aim_creates_nan_bullet :
    fxIdleState.bullets = [] ∧
    (Shooter.shootH fxIdleState "Q" (.num 1) (.num 2) (.num 1) (.num 2)).bullets.map
        (fun ib => (ib.1, ib.2.dx, ib.2.dz)) = [(0, .nan, .nan)] := by
  refine ⟨rfl, ?_⟩
  norm_num [Shooter.shootH, fxIdleState, fxIdle, fxEmpty, List.lookup]

/-! Characterization of `Arena.tickTimers`, collapsing its sequential
record updates into one equation per field. -/

theorem tickTimers_dashCooldown (p : Arena.Player2) :
    (Arena.tickTimers p).1.dashCooldown =
      if 0 < p.dashCooldown then p.dashCooldown - Arena.dtick else p.dashCooldown := by
  simp only [Arena.tickTimers]
  split_ifs <;> rfl

theorem tickTimers_gunCooldown (p : Arena.Player2) :
    (Arena.tickTimers p).1.gunCooldown =
      if 0 < p.gunCooldown then p.gunCooldown - Arena.dtick else p.gunCooldown := by
  simp only [Arena.tickTimers]
  split_ifs <;> rfl

theorem tickTimers_meleeCooldown (p : Arena.Player2) :
    (Arena.tickTimers p).1.meleeCooldown =
      if 0 < p.meleeCooldown then p.meleeCooldown - Arena.dtick else p.meleeCooldown := by
  simp only [Arena.tickTimers]
  split_ifs <;> rfl

theorem tickTimers_dashTimer (p : Arena.Player2) :
    (Arena.tickTimers p).1.dashTimer =
      if p.isDashing then p.dashTimer - Arena.dtick else p.dashTimer := by
  simp only [Arena.tickTimers]
  split_ifs <;> rfl

theorem tickTimers_isDashing (p : Arena.Player2) :
    (Arena.tickTimers p).1.isDashing =
      (p.isDashing && decide (0 < p.dashTimer - Arena.dtick)) := by
  simp only [Arena.tickTimers]
  split_ifs with h1 h2 h3 h4 h5 <;> simp_all

/-- A positive multiple of `dtick`, decremented by `dtick`, is still a
    non-negative multiple of `dtick`. -/
theorem mul_dtick_step (a : ℕ) (h : 0 < (a : ℚ) * Arena.dtick) :
    ∃ b : ℕ, (a : ℚ) * Arena.dtick - Arena.dtick = (b : ℚ) * Arena.dtick := by
  have hdt : (0:ℚ) < Arena.dtick := by norm_num [Arena.dtick, Arena.TICK_RATE]
  have ha : 0 < a := by
    by_contra hc
    push_neg at hc
    interval_cases a
    simp at h
  obtain ⟨b, rfl⟩ := Nat.exists_eq_succ_of_ne_zero (Nat.pos_iff_ne_zero.mp ha)
  exact ⟨b, by push_cast; ring⟩

/-- **C5 counterexample** — the cooldown section performs *no* clamping:
    a player whose dash cooldown is `1/120` (positive, but not a
    multiple of the tick step `dtick = 1/60`) ends the timer-update
    step with a strictly negative dash cooldown, refuting "clamped at
    zero, so after the timer-update step every timer value is ≥ 0" as a
    statement about arbitrary timer values. -/
theorem c5_no_clamp_counterexample :
    (Arena.tickTimers fxHalfStep).1.dashCooldown < 0 := by
  rw [tickTimers_dashCooldown]
  norm_num [fxHalfStep, fxArenaBase, Arena.dtick, Arena.TICK_RATE]

/-- **C5 (amended)** — the timers are decremented by `dtick` with *no*
    clamping; they nevertheless never go negative on values the code
    can produce, because every value the handlers assign
    (`DASH_COOLDOWN = 3`, `GUN_COOLDOWN = 0.3`, `MELEE_COOLDOWN = 0.8`,
    `DASH_DURATION = 0.2`, and 0 at creation) is an exact natural
    multiple of `dtick = 1/60`, so under exact arithmetic each timer
    steps down to exactly zero and then stops.  The dash `active` flag
    is cleared in exactly the update in which the decremented timer
    reaches ≤ 0. -/
theorem c5_timers_nonneg_on_multiples (p : Arena.Player2)
    (h1 : ∃ a : ℕ, p.dashCooldown = (a : ℚ) * Arena.dtick)
    (h2 : ∃ a : ℕ, p.gunCooldown = (a : ℚ) * Arena.dtick)
    (h3 : ∃ a : ℕ, p.meleeCooldown = (a : ℚ) * Arena.dtick)
    (h4 : ∃ a : ℕ, p.dashTimer = (a : ℚ) * Arena.dtick)
    (h5 : p.isDashing = true → 0 < p.dashTimer) :
    (0 ≤ (Arena.tickTimers p).1.dashCooldown ∧
      ∃ b : ℕ, (Arena.tickTimers p).1.dashCooldown = (b : ℚ) * Arena.dtick) ∧
    (0 ≤ (Arena.tickTimers p).1.gunCooldown ∧
      ∃ b : ℕ, (Arena.tickTimers p).1.gunCooldown = (b : ℚ) * Arena.dtick) ∧
    (0 ≤ (Arena.tickTimers p).1.meleeCooldown ∧
      ∃ b : ℕ, (Arena.tickTimers p).1.meleeCooldown = (b : ℚ) * Arena.dtick) ∧
    (0 ≤ (Arena.tickTimers p).1.dashTimer ∧
      ∃ b : ℕ, (Arena.tickTimers p).1.dashTimer = (b : ℚ) * Arena.dtick) ∧
    ((Arena.tickTimers p).1.isDashing = true ↔
      p.isDashing = true ∧ Arena.dtick < p.dashTimer) := by
  have hdt : (0:ℚ) < Arena.dtick := by norm_num [Arena.dtick, Arena.TICK_RATE]
  obtain ⟨a1, e1⟩ := h1
  obtain ⟨a2, e2⟩ := h2
  obtain ⟨a3, e3⟩ := h3
  obtain ⟨a4, e4⟩ := h4
  have step : ∀ a : ℕ, 0 ≤ (if 0 < (a : ℚ) * Arena.dtick
      then (a : ℚ) * Arena.dtick - Arena.dtick else (a : ℚ) * Arena.dtick) ∧
      ∃ b : ℕ, (if 0 < (a : ℚ) * Arena.dtick
      then (a : ℚ) * Arena.dtick - Arena.dtick else (a : ℚ) * Arena.dtick) =
        (b : ℚ) * Arena.dtick := by
    intro a
    by_cases hp : 0 < (a : ℚ) * Arena.dtick
    · obtain ⟨b, hb⟩ := mul_dtick_step a hp
      rw [if_pos hp, hb]
      exact ⟨by positivity, b, rfl⟩
    · rw [if_neg hp]
      exact ⟨by positivity, a, rfl⟩
  refine ⟨?_, ?_, ?_, ?_, ?_⟩
  · rw [tickTimers_dashCooldown, e1]
    exact step a1
  · rw [tickTimers_gunCooldown, e2]
    exact step a2
  · rw [tickTimers_meleeCooldown, e3]
    exact step a3
  · rw [tickTimers_dashTimer, e4]
    by_cases hd : p.isDashing
    · rw [if_pos hd]
      by_cases hp : 0 < (a4 : ℚ) * Arena.dtick
      · obtain ⟨b, hb⟩ := mul_dtick_step a4 hp
        rw [hb]
        exact ⟨by positivity, b, rfl⟩
      · exact absurd (e4 ▸ h5 hd) hp
    · rw [if_neg hd]
      exact ⟨by positivity, a4, rfl⟩
  · rw [tickTimers_isDashing, e4]
    constructor
    · intro h
      simp only [Bool.and_eq_true, decide_eq_true_eq] at h
      exact ⟨h.1, by linarith [h.2]⟩
    · intro h
      simp only [Bool.and_eq_true, decide_eq_true_eq]
      exact ⟨h.1, by linarith [h.2]⟩

/-- **C5 witness** — the amended theorem applied to a concrete mid-dash
    player whose four timers are 180, 18, 48 and 12 tick steps. -/
theorem c5_timers_nonneg_witness :
    0 ≤ (Arena.tickTimers fxDashing).1.dashCooldown ∧
    0 ≤ (Arena.tickTimers fxDashing).1.gunCooldown ∧
    0 ≤ (Arena.tickTimers fxDashing).1.meleeCooldown ∧
    0 ≤ (Arena.tickTimers fxDashing).1.dashTimer ∧
    (Arena.tickTimers fxDashing).1.isDashing = true := by
  have hdt : Arena.dtick = 1/60 := by norm_num [Arena.dtick, Arena.TICK_RATE]
  obtain ⟨c1, c2, c3, c4, c5⟩ := c5_timers_nonneg_on_multiples fxDashing
    ⟨180, by rw [hdt]; norm_num [fxDashing, fxArenaBase]⟩
    ⟨18, by rw [hdt]; norm_num [fxDashing, fxArenaBase]⟩
    ⟨48, by rw [hdt]; norm_num [fxDashing, fxArenaBase]⟩
    ⟨12, by rw [hdt]; norm_num [fxDashing, fxArenaBase]⟩
    (fun _ => by norm_num [fxDashing, fxArenaBase])
  refine ⟨c1.1, c2.1, c3.1, c4.1, c5.mpr ⟨rfl, ?_⟩⟩
  rw [hdt]
  norm_num [fxDashing, fxArenaBase]

/-- **C9** — for every player whose dash cooldown has elapsed, the
    `'dash'` handler is not atomic on error: it first applies the full
    dash state mutation (`isDashing`, `dashTimer`, `dashCooldown`) and
    then raises a ReferenceError by reading `playerUpdates`, an
    identifier that exists only as a `let` local inside `gameLoop`; the
    handler therefore always terminates in an error with the dash state
    already changed. -/
theorem c9_dash_mutates_then_throws (ps : List (String × Arena.Player2)) (sid : String)
    (p : Arena.Player2) (hlook : ps.lookup sid = some p) (hcd : p.dashCooldown ≤ 0) :
    (Arena.dashH ps sid).2 = true ∧
    (Arena.dashH ps sid).1.lookup sid =
      some { p with isDashing := true, dashTimer := Arena.DASH_DURATION,
                    dashCooldown := Arena.DASH_COOLDOWN } := by
  unfold Arena.dashH
  rw [hlook]
  simp only [if_pos hcd]
  refine ⟨trivial, ?_⟩
  rw [lookup_map_ite ps sid
    (fun q => { q with isDashing := true, dashTimer := Arena.DASH_DURATION,
                       dashCooldown := Arena.DASH_COOLDOWN })]
  rw [hlook]
  rfl

/-- **C9 witness** — the theorem applied to a single ready player. -/
theorem c9_dash_witness :
    (Arena.dashH [("A", fxArenaBase)] "A").2 = true ∧
    (Arena.dashH [("A", fxArenaBase)] "A").1.lookup "A" =
      some { fxArenaBase with isDashing := true, dashTimer := Arena.DASH_DURATION,
                              dashCooldown := Arena.DASH_COOLDOWN } :=
  c9_dash_mutates_then_throws [("A", fxArenaBase)] "A" fxArenaBase rfl
    (by norm_num [fxArenaBase])

/-- The Boolean returned by `movePlayer` is exactly the `hasMoved`
    flag. -/
theorem movePlayer_snd (p : Shooter.PlayerS) (w a s d : Bool) :
    (Shooter.movePlayer p w a s d).2 = (w || s || a || d) := by
  simp only [Shooter.movePlayer]
  by_cases h : (w || s || a || d) = true <;> simp [h]

/-- **C7 counterexample** — a player pressed against the western wall
    (`x = -25`) holding only the `a` flag moves to `-25.1`, is clamped
    back to `-25`, so its position is unchanged — yet the tick reports
    it in `updates`, refuting "recorded only if its position actually
    changed". -/
theorem c7_wall_pressed_counterexample :
    Shooter.gameLoopE { fxEmpty with players := [("P", fxWallPlayer)] } (fun _ => 1/2) =
      .ok ({ updates := ["P"], newIds := [], removed := [], bullets := [] },
           { players := [("P", fxWallPlayer)], bullets := [], newPlayers := [],
             removedPlayers := [], bulletIdCounter := 0 }) := by
  norm_num [Shooter.gameLoopE, Shooter.moveStep, Shooter.movePlayer, Shooter.clampMap,
    Shooter.moveBullets, Shooter.collidePass, fxWallPlayer, fxEmpty,
    Shooter.PLAYER_SPEED, Shooter.MAP_SIZE]

/-- **C7 (amended)** — in the movement step, a player is recorded in
    `playerUpdates` iff at least one movement-intent flag is set
    (`hasMoved`), regardless of whether the clamped position actually
    changed; a flagless player is never recorded by this step. -/
theorem c7_movement_update_iff_intent (ps : List (String × Shooter.PlayerS))
    (hnn : ∀ ip ∈ ps, ip.2.inputs ≠ .nullish) :
    ∃ r, Shooter.moveStep ps = .ok r ∧
      r.1 = ps.map (fun ip => (ip.1, Shooter.moveOne ip.2)) ∧
      ∀ id, (id ∈ r.2 ↔ ∃ p, (id, p) ∈ ps ∧ Shooter.hasIntent p = true) := by
  induction ps with
  | nil => exact ⟨([], []), rfl, rfl, by simp⟩
  | cons hd tl ih =>
    obtain ⟨k, p⟩ := hd
    obtain ⟨rtl, hok, hmap, hiff⟩ := ih (fun ip hip => hnn ip (List.mem_cons_of_mem _ hip))
    have hpnn : p.inputs ≠ .nullish := hnn (k, p) (List.mem_cons_self _ _)
    rcases hv : p.inputs with _ | ⟨w, a, s, d⟩
    · exact absurd hv hpnn
    refine ⟨((k, (Shooter.movePlayer p w a s d).1) :: rtl.1,
      if (Shooter.movePlayer p w a s d).2 then k :: rtl.2 else rtl.2), ?_, ?_, ?_⟩
    · simp only [Shooter.moveStep, hv, hok]
    · simp [List.map, hmap, Shooter.moveOne, hv]
    · intro id
      rw [movePlayer_snd]
      constructor
      · intro hin
        by_cases hm : (w || s || a || d) = true
        · rw [if_pos hm] at hin
          rcases List.mem_cons.mp hin with h1 | h2
          · refine ⟨p, ?_, ?_⟩
            · rw [h1]
              exact List.mem_cons_self _ _
            · simp [Shooter.hasIntent, hv, hm]
          · obtain ⟨q, hq1, hq2⟩ := (hiff id).mp h2
            exact ⟨q, List.mem_cons_of_mem _ hq1, hq2⟩
        · rw [if_neg hm] at hin
          obtain ⟨q, hq1, hq2⟩ := (hiff id).mp hin
          exact ⟨q, List.mem_cons_of_mem _ hq1, hq2⟩
      · rintro ⟨q, hq1, hq2⟩
        rcases List.mem_cons.mp hq1 with h1 | h2
        · simp only [Prod.mk.injEq] at h1
          obtain ⟨hik, hqp⟩ := h1
          subst hik
          subst hqp
          have hm : (w || s || a || d) = true := by
            simpa [Shooter.hasIntent, hv] using hq2
          rw [if_pos hm]
          exact List.mem_cons_self _ _
        · have hmem : id ∈ rtl.2 := (hiff id).mpr ⟨q, h2, hq2⟩
          by_cases hm : (w || s || a || d) = true
          · rw [if_pos hm]
            exact List.mem_cons_of_mem _ hmem
          · rw [if_neg hm]
            exact hmem

/-- **C7 witness** — the amended theorem applied to a two-player list:
    the wall-pressed player (one flag set, position will not change) is
    reported; the idle player is not. -/
theorem c7_movement_update_witness :
    ∃ r, Shooter.moveStep [("P", fxWallPlayer), ("Q", fxIdle)] = .ok r ∧
      ("P" ∈ r.2 ∧ "Q" ∉ r.2) := by
  obtain ⟨r, hok, _, hiff⟩ := c7_movement_update_iff_intent
    [("P", fxWallPlayer), ("Q", fxIdle)] (by decide)
  refine ⟨r, hok, (hiff "P").mpr ⟨fxWallPlayer, by decide, by decide⟩, ?_⟩
  intro hq
  obtain ⟨q, hq1, hq2⟩ := (hiff "Q").mp hq
  rcases List.mem_cons.mp hq1 with h1 | h2
  · have : q = fxWallPlayer := congrArg Prod.snd h1
    have hbad : ("Q" : String) = "P" := congrArg Prod.fst h1
    exact absurd hbad (by decide)
  · rcases List.mem_cons.mp h2 with h3 | h4
    · have hq : q = fxIdle := congrArg Prod.snd h3
      rw [hq] at hq2
      exact absurd hq2 (by decide)
    · simp at h4

/-- Clamping a finite coordinate yields `max (-25) (min 25 q)`. -/
theorem clampMap_num (q : ℚ) :
    Shooter.clampMap (.num q) = .num (max (-25) (min 25 q)) := by
  simp only [Shooter.clampMap, Shooter.MAP_SIZE, jsMin_num, jsMax_num]
  congr 1
  rcases lt_trichotomy q 25 with h | h | h <;>
    rcases le_or_lt q (-25) with h2 | h2 <;>
    simp [min_def, max_def] <;> split_ifs <;> linarith

/-- A clamped finite coordinate is inside the arena. -/
theorem clampMap_inArena (q : ℚ) : Shooter.inArena (Shooter.clampMap (.num q)) := by
  rw [clampMap_num]
  refine ⟨max (-25) (min 25 q), rfl, ?_, ?_⟩
  · simp [Shooter.MAP_SIZE]
  · simp only [Shooter.MAP_SIZE]
    rw [max_le_iff]
    constructor
    · norm_num
    · exact le_trans (min_le_left _ _) (by norm_num)

/-- `moveOne` preserves the player invariant and leaves `hp`, `maxHp`
    and `inputs` untouched. -/
theorem moveOne_spec (p : Shooter.PlayerS) :
    (Shooter.moveOne p).hp = p.hp ∧ (Shooter.moveOne p).maxHp = p.maxHp ∧
    (Shooter.moveOne p).inputs = p.inputs ∧
    (Shooter.PlayerInv p → Shooter.PlayerInv (Shooter.moveOne p)) := by
  rcases hv : p.inputs with _ | ⟨w, a, s, d⟩
  · simp [Shooter.moveOne, hv]
  simp only [Shooter.moveOne, hv, Shooter.movePlayer]
  by_cases hm : (w || s || a || d) = true
  · rw [if_pos hm]
    refine ⟨rfl, rfl, rfl, ?_⟩
    rintro ⟨⟨qx, hqx, _⟩, ⟨qz, hqz, _⟩, hhp, hle, hmax⟩
    refine ⟨?_, ?_, hhp, hle, hmax⟩
    · rcases a with _ | _ <;> rcases d with _ | _ <;>
        simp [hqx, Shooter.PLAYER_SPEED, clampMap_inArena]
    · rcases w with _ | _ <;> rcases s with _ | _ <;>
        simp [hqz, Shooter.PLAYER_SPEED, clampMap_inArena]
  · rw [if_neg hm]
    exact ⟨rfl, rfl, hv, id⟩

/-- `moveStep` succeeds on nullish-free player lists and acts as the
    pointwise `moveOne` map on the records. -/
theorem moveStep_ok_map (ps : List (String × Shooter.PlayerS))
    (hnn : ∀ ip ∈ ps, ip.2.inputs ≠ .nullish) :
    ∃ r, Shooter.moveStep ps = .ok r ∧
      r.1 = ps.map (fun ip => (ip.1, Shooter.moveOne ip.2)) := by
  induction ps with
  | nil => exact ⟨([], []), rfl, rfl⟩
  | cons hd tl ih =>
    obtain ⟨k, p⟩ := hd
    obtain ⟨rtl, hok, hmap⟩ := ih (fun ip hip => hnn ip (List.mem_cons_of_mem _ hip))
    have hpnn : p.inputs ≠ .nullish := hnn (k, p) (List.mem_cons_self _ _)
    rcases hv : p.inputs with _ | ⟨w, a, s, d⟩
    · exact absurd hv hpnn
    refine ⟨((k, (Shooter.movePlayer p w a s d).1) :: rtl.1,
      if (Shooter.movePlayer p w a s d).2 then k :: rtl.2 else rtl.2), ?_, ?_⟩
    · simp only [Shooter.moveStep, hv, hok]
    · simp [List.map, hmap, Shooter.moveOne, hv]

/-- `damagePlayer` preserves the player invariant (given in-range
    random draws) and leaves `inputs` untouched. -/
theorem damagePlayer_spec (p : Shooter.PlayerS) (rand : ℕ → ℚ) (k : ℕ)
    (hr : ∀ n, 0 ≤ rand n ∧ rand n < 1) :
    (Shooter.damagePlayer p rand k).1.inputs = p.inputs ∧
    (Shooter.PlayerInv p → Shooter.PlayerInv (Shooter.damagePlayer p rand k).1) := by
  simp only [Shooter.damagePlayer]
  by_cases hz : p.hp - Shooter.BULLET_DAMAGE ≤ 0
  · rw [if_pos (by simpa using hz)]
    refine ⟨rfl, ?_⟩
    rintro ⟨_, _, _, _, hmax⟩
    refine ⟨⟨(rand k - 1/2) * 20, rfl, ?_, ?_⟩,
            ⟨(rand (k+1) - 1/2) * 20, rfl, ?_, ?_⟩, ?_, ?_, hmax⟩ <;>
      simp only [Shooter.MAP_SIZE, Shooter.PLAYER_MAX_HP, hmax]
    · nlinarith [(hr k).1, (hr k).2]
    · nlinarith [(hr k).1, (hr k).2]
    · nlinarith [(hr (k+1)).1, (hr (k+1)).2]
    · nlinarith [(hr (k+1)).1, (hr (k+1)).2]
    · norm_num
    · norm_num
  · rw [if_neg (by simpa using hz)]
    refine ⟨rfl, ?_⟩
    rintro ⟨hx, hz2, hhp, hle, hmax⟩
    push_neg at hz
    refine ⟨hx, hz2, by simpa using hz, ?_, hmax⟩
    simp only [Shooter.BULLET_DAMAGE]
    linarith

/-- `damagePlayer` never touches the stored inputs. -/
theorem damagePlayer_inputs (p : Shooter.PlayerS) (rand : ℕ → ℚ) (k : ℕ) :
    (Shooter.damagePlayer p rand k).1.inputs = p.inputs := by
  simp only [Shooter.damagePlayer]
  split_ifs <;> rfl

/-- A per-record property invariant under `damagePlayer` is preserved
    pointwise by the hit scan. -/
theorem hitScan_pointwise (Q : Shooter.PlayerS → Prop) (owner : String)
    (b : Shooter.BulletS) (rand : ℕ → ℚ)
    (hQ : ∀ p k', Q p → Q (Shooter.damagePlayer p rand k').1) :
    ∀ (ps : List (String × Shooter.PlayerS)) (k : ℕ), (∀ ip ∈ ps, Q ip.2) →
      ∀ ip ∈ (Shooter.hitScan owner b rand k ps).1, Q ip.2 := by
  intro ps
  induction ps with
  | nil => intro k _ ip hip; simp [Shooter.hitScan] at hip
  | cons hd tl ih =>
    intro k h ip hip
    obtain ⟨pid, p⟩ := hd
    by_cases howner : pid = owner
    · simp only [Shooter.hitScan, if_pos howner] at hip
      rcases List.mem_cons.mp hip with h1 | h2
      · rw [h1]
        exact h _ (List.mem_cons_self _ _)
      · exact ih k (fun iq hiq => h iq (List.mem_cons_of_mem _ hiq)) ip h2
    · simp only [Shooter.hitScan, if_neg howner] at hip
      by_cases hhit : jsSqrtLt
          (jsAdd (jsMul (jsSub b.x p.x) (jsSub b.x p.x))
                 (jsMul (jsSub b.z p.z) (jsSub b.z p.z)))
          (.num (Shooter.PLAYER_RADIUS + Shooter.BULLET_RADIUS)) = true
      · rw [if_pos hhit] at hip
        rcases List.mem_cons.mp hip with h1 | h2
        · rw [h1]
          exact hQ p k (h _ (List.mem_cons_self _ _))
        · exact h ip (List.mem_cons_of_mem _ h2)
      · rw [if_neg hhit] at hip
        rcases List.mem_cons.mp hip with h1 | h2
        · rw [h1]
          exact h _ (List.mem_cons_self _ _)
        · exact ih k (fun iq hiq => h iq (List.mem_cons_of_mem _ hiq)) ip h2

/-- A per-record property invariant under `damagePlayer` is preserved
    pointwise by the whole collision pass. -/
theorem collidePass_pointwise (Q : Shooter.PlayerS → Prop) (rand : ℕ → ℚ)
    (hQ : ∀ p k', Q p → Q (Shooter.damagePlayer p rand k').1) :
    ∀ (bs : List (Nat × Shooter.BulletS)) (ps : List (String × Shooter.PlayerS))
      (rem : List Nat) (upd : List String) (k : ℕ), (∀ ip ∈ ps, Q ip.2) →
      ∀ ip ∈ (Shooter.collidePass rand bs ps rem upd k).1, Q ip.2 := by
  intro bs
  induction bs with
  | nil => intro ps rem upd k h ip hip; simpa [Shooter.collidePass] using h ip hip
  | cons hd tl ih =>
    intro ps rem upd k h ip hip
    obtain ⟨i, b⟩ := hd
    by_cases hrem : i ∈ rem
    · rw [Shooter.collidePass, if_pos hrem] at hip
      exact ih ps rem upd k h ip hip
    · have hsc := hitScan_pointwise Q b.ownerId b rand hQ ps k h
      rcases hr2 : Shooter.hitScan b.ownerId b rand k ps with ⟨ps', opt, k2⟩
      rw [hr2] at hsc
      rcases opt with _ | pid
      · rw [Shooter.collidePass, if_neg hrem, hr2] at hip
        exact ih ps' rem upd k2 hsc ip hip
      · rw [Shooter.collidePass, if_neg hrem, hr2] at hip
        exact ih ps' (rem ++ [i]) (Shooter.addKey upd pid) k2 hsc ip hip

/-- **C4 counterexample** — the "ends that same tick with hp = maxHp"
    clause fails when the respawned player is hit again in the same
    tick.  Player `P` starts with 10 hp at `(5,5)`; bullet 0 reaches
    `(5,5)`, drops `P` to 0 and respawns it at `(0,0)` (draws = 1/2)
    with 100 hp — the first conjunct shows exactly this when bullet 0
    is alone.  With bullet 1 also present (it reaches `(0,0)` this same
    tick), the respawned `P` is hit again and ends the tick with hp 90
    ≠ maxHp.  The invariant clause (0 ≤ hp ≤ maxHp, in bounds) still
    holds. -/
theorem c4_double_hit_counterexample :
    (Shooter.gameLoopE fxOneBulletState (fun _ => 1/2) =
      .ok ({ updates := ["P"], newIds := [], removed := [], bullets := [] },
        { fxEmpty with players := [("P", fxRespawned)] })) ∧
    (Shooter.gameLoopE fxTwoBulletState (fun _ => 1/2) =
      .ok ({ updates := ["P"], newIds := [], removed := [], bullets := [] },
        { fxEmpty with players := [("P", fxRespawnedHit)] })) := by
  constructor <;>
    norm_num [Shooter.gameLoopE, Shooter.moveStep, Shooter.movePlayer,
      Shooter.moveBullets, Shooter.moveBullet, Shooter.oobBullet,
      Shooter.collidePass, Shooter.hitScan, Shooter.damagePlayer, Shooter.addKey,
      Shooter.clampMap, fxEmpty, fxLowHp, fxBulletA, fxBulletB,
      fxOneBulletState, fxTwoBulletState, fxRespawned, fxRespawnedHit,
      Shooter.PLAYER_SPEED, Shooter.MAP_SIZE, Shooter.BULLET_SPEED,
      Shooter.BULLET_RADIUS, Shooter.PLAYER_RADIUS, Shooter.BULLET_DAMAGE,
      Shooter.PLAYER_MAX_HP, List.filter,
      (show ("P" : String) ≠ "Q" by decide)]

/-- **C4 (amended)** — at the end of every tick every live player has a
    finite in-bounds position and `0 < hp ≤ maxHp` (hence
    `0 ≤ hp ≤ maxHp`); a player damaged to ≤ 0 is respawned with full
    hp at an in-bounds position within the same tick, but may be
    damaged again by a later bullet of the same tick, so its
    end-of-tick hp may be any positive value ≤ maxHp (see the
    counterexample), not necessarily maxHp. -/
theorem c4_end_of_tick_invariant (s : Shooter.ServerState) (rand : ℕ → ℚ)
    (hr : ∀ n, 0 ≤ rand n ∧ rand n < 1)
    (hnn : ∀ ip ∈ s.players, ip.2.inputs ≠ .nullish)
    (hinv : ∀ ip ∈ s.players, Shooter.PlayerInv ip.2) :
    ∃ d s', Shooter.gameLoopE s rand = .ok (d, s') ∧
      ∀ ip ∈ s'.players, Shooter.PlayerInv ip.2 := by
  obtain ⟨r, hok, hmap⟩ := moveStep_ok_map s.players hnn
  rcases r with ⟨ps1, upd1⟩
  have hps1 : ∀ ip ∈ ps1, Shooter.PlayerInv ip.2 := by
    intro ip hip
    rw [show (ps1, upd1).1 = ps1 from rfl] at hmap
    rw [hmap] at hip
    obtain ⟨iq, hiq, hiq2⟩ := List.mem_map.mp hip
    rw [← hiq2]
    exact (moveOne_spec iq.2).2.2.2 (hinv iq hiq)
  have hdmg : ∀ p k', Shooter.PlayerInv p →
      Shooter.PlayerInv (Shooter.damagePlayer p rand k').1 :=
    fun p k' hp => (damagePlayer_spec p rand k' hr).2 hp
  rcases hgl : Shooter.gameLoopE s rand with e | ds
  · exfalso
    unfold Shooter.gameLoopE at hgl
    rw [hok] at hgl
    exact Except.noConfusion hgl
  · obtain ⟨d, s'⟩ := ds
    refine ⟨d, s', rfl, ?_⟩
    unfold Shooter.gameLoopE at hgl
    rw [hok] at hgl
    have hs : s' = { s with
        players := (Shooter.collidePass rand (Shooter.moveBullets s.bullets).1 ps1
          (Shooter.moveBullets s.bullets).2 upd1 0).1,
        bullets := (Shooter.moveBullets s.bullets).1.filter
          (fun ib => decide (ib.1 ∉ (Shooter.collidePass rand
            (Shooter.moveBullets s.bullets).1 ps1
            (Shooter.moveBullets s.bullets).2 upd1 0).2.1)),
        newPlayers := [], removedPlayers := [] } :=
      (congrArg Prod.snd (Except.ok.inj hgl)).symm
    rw [hs]
    exact collidePass_pointwise Shooter.PlayerInv rand hdmg _ ps1 _ _ 0 hps1

/-- **C4 witness** — the amended invariant applied to a concrete
    one-player state. -/
theorem c4_invariant_witness :
    ∃ d s', Shooter.gameLoopE fxIdleState (fun _ => 1/2) = .ok (d, s') ∧
      ∀ ip ∈ s'.players, Shooter.PlayerInv ip.2 := by
  refine c4_end_of_tick_invariant fxIdleState (fun _ => 1/2)
    (fun n => ⟨by norm_num, by norm_num⟩) (by decide) ?_
  intro ip hip
  rcases List.mem_cons.mp hip with h1 | h2
  · rw [h1]
    refine ⟨⟨1, rfl, ?_, ?_⟩, ⟨1, rfl, ?_, ?_⟩, ?_, ?_, ?_⟩ <;>
      norm_num [Shooter.MAP_SIZE, Shooter.PLAYER_MAX_HP, fxIdle]
  · simp [fxIdleState, fxEmpty] at h2

/-- `moveBullets` acts pointwise on the bullet records and preserves
    the key list. -/
theorem moveBullets_fst (bs : List (Nat × Shooter.BulletS)) :
    (Shooter.moveBullets bs).1 = bs.map (fun ib => (ib.1, Shooter.moveBullet ib.2)) := by
  induction bs with
  | nil => rfl
  | cons hd tl ih => simp [Shooter.moveBullets, ih]

/-- Advancing a bullet whose direction components are NaN makes both
    position components NaN while keeping the NaN direction. -/
theorem moveBullet_nan (b : Shooter.BulletS) (hdx : b.dx = .nan) (hdz : b.dz = .nan) :
    Shooter.moveBullet b =
      { b with x := .nan, z := .nan } := by
  simp [Shooter.moveBullet, hdx, hdz]

/-- A bullet with NaN position components never satisfies the
    out-of-bounds test: every comparison against NaN is false. -/
theorem oobBullet_nan (b : Shooter.BulletS) (hx : b.x = .nan) (hz : b.z = .nan) :
    Shooter.oobBullet b = false := by
  simp [Shooter.oobBullet, hx, hz]

/-- A bullet with NaN x-position hits nobody: the squared distance is
    NaN and the circle-overlap comparison is false for every player, so
    the scan returns no hit and leaves the players untouched. -/
theorem hitScan_nan (owner : String) (b : Shooter.BulletS) (hx : b.x = .nan)
    (rand : ℕ → ℚ) (k : ℕ) :
    ∀ ps : List (String × Shooter.PlayerS),
      Shooter.hitScan owner b rand k ps = (ps, none, k) := by
  intro ps
  induction ps with
  | nil => rfl
  | cons hd tl ih =>
    obtain ⟨pid, p⟩ := hd
    by_cases howner : pid = owner
    · simp only [Shooter.hitScan, if_pos howner, ih]
    · simp only [Shooter.hitScan, if_neg howner, hx, jsSub_nan_left, jsMul_nan_left,
        jsAdd_nan_left, jsSqrtLt_nan_left, Bool.false_eq_true, if_false, ih]

/-- The collision pass never flags a bullet id all of whose entries
    have NaN x-position (such bullets cannot hit), provided the id is
    not already flagged. -/
theorem collidePass_not_removed (rand : ℕ → ℚ) :
    ∀ (bs : List (Nat × Shooter.BulletS)) (ps : List (String × Shooter.PlayerS))
      (rem : List Nat) (upd : List String) (k : ℕ) (i : Nat), i ∉ rem →
      (∀ b, (i, b) ∈ bs → b.x = .nan) →
      i ∉ (Shooter.collidePass rand bs ps rem upd k).2.1 := by
  intro bs
  induction bs with
  | nil => intro ps rem upd k i hirem _ h; exact hirem h
  | cons hd tl ih =>
    intro ps rem upd k i hirem hnan
    obtain ⟨j, b⟩ := hd
    by_cases hjrem : j ∈ rem
    · rw [Shooter.collidePass, if_pos hjrem]
      exact ih ps rem upd k i hirem (fun b' hb' => hnan b' (List.mem_cons_of_mem _ hb'))
    · by_cases hji : j = i
      · subst hji
        have hx : b.x = .nan := hnan b (List.mem_cons_self _ _)
        rw [Shooter.collidePass, if_neg hjrem, hitScan_nan b.ownerId b hx rand k ps]
        exact ih ps rem upd k j hirem (fun b' hb' => hnan b' (List.mem_cons_of_mem _ hb'))
      · rcases hr2 : Shooter.hitScan b.ownerId b rand k ps with ⟨ps', opt, k2⟩
        rcases opt with _ | pid
        · rw [Shooter.collidePass, if_neg hjrem, hr2]
          exact ih ps' rem upd k2 i hirem
            (fun b' hb' => hnan b' (List.mem_cons_of_mem _ hb'))
        · rw [Shooter.collidePass, if_neg hjrem, hr2]
          refine ih ps' (rem ++ [j]) (Shooter.addKey upd pid) k2 i ?_
            (fun b' hb' => hnan b' (List.mem_cons_of_mem _ hb'))
          intro hmem
          rcases List.mem_append.mp hmem with h1 | h2
          · exact hirem h1
          · exact hji (List.mem_singleton.mp h2).symm

/-- In an association list with nodup keys, a key determines its
    record. -/
theorem mem_unique_of_nodup_keys {α β : Type} (l : List (α × β))
    (h : (l.map Prod.fst).Nodup) (i : α) (b1 b2 : β)
    (h1 : (i, b1) ∈ l) (h2 : (i, b2) ∈ l) : b1 = b2 := by
  induction l with
  | nil => simp at h1
  | cons hd tl ih =>
    obtain ⟨k, v⟩ := hd
    rw [List.map_cons, List.nodup_cons] at h
    rcases List.mem_cons.mp h1 with e1 | m1 <;> rcases List.mem_cons.mp h2 with e2 | m2
    · have hb1 : b1 = v := congrArg Prod.snd e1
      have hb2 : b2 = v := congrArg Prod.snd e2
      rw [hb1, hb2]
    · exfalso
      have hk : i = k := congrArg Prod.fst e1
      subst hk
      exact h.1 (by simpa using List.mem_map_of_mem Prod.fst m2)
    · exfalso
      have hk : i = k := congrArg Prod.fst e2
      subst hk
      exact h.1 (by simpa using List.mem_map_of_mem Prod.fst m1)
    · exact ih h.2 m1 m2

/-- Every id flagged by the bullet-movement pass belongs to a moved
    bullet that is out of bounds. -/
theorem moveBullets_rem_spec (bs : List (Nat × Shooter.BulletS)) :
    ∀ i ∈ (Shooter.moveBullets bs).2,
      ∃ b, (i, b) ∈ (Shooter.moveBullets bs).1 ∧ Shooter.oobBullet b = true := by
  induction bs with
  | nil => intro i hi; simp [Shooter.moveBullets] at hi
  | cons hd tl ih =>
    intro i hi
    obtain ⟨j, b⟩ := hd
    simp only [Shooter.moveBullets] at hi ⊢
    by_cases hoob : Shooter.oobBullet (Shooter.moveBullet b) = true
    · rw [if_pos hoob] at hi
      rcases List.mem_cons.mp hi with h1 | h2
      · exact ⟨Shooter.moveBullet b, h1 ▸ List.mem_cons_self _ _, hoob⟩
      · obtain ⟨b', hb1, hb2⟩ := ih i h2
        exact ⟨b', List.mem_cons_of_mem _ hb1, hb2⟩
    · rw [if_neg hoob] at hi
      obtain ⟨b', hb1, hb2⟩ := ih i hi
      exact ⟨b', List.mem_cons_of_mem _ hb1, hb2⟩

/-- The moved bullet list has the same key list as the input. -/
theorem moveBullets_keys (bs : List (Nat × Shooter.BulletS)) :
    (Shooter.moveBullets bs).1.map Prod.fst = bs.map Prod.fst := by
  rw [moveBullets_fst, List.map_map]
  rfl

/-- One tick preserves a NaN-direction bullet: it is neither removed as
    out of bounds (NaN comparisons are false) nor by collision (NaN
    distance comparisons are false), it stays in the world with NaN
    direction and (after moving) NaN position, and it is included in
    the tick's broadcast delta. -/
theorem gameLoop_nan_bullet_step (s : Shooter.ServerState) (rand : ℕ → ℚ) (i : Nat)
    (hnn : ∀ ip ∈ s.players, ip.2.inputs ≠ .nullish)
    (hnd : (s.bullets.map Prod.fst).Nodup)
    (hb : ∃ b, (i, b) ∈ s.bullets ∧ b.dx = .nan ∧ b.dz = .nan) :
    ∃ d s', Shooter.gameLoopE s rand = .ok (d, s') ∧
      (∃ b', (i, b') ∈ s'.bullets ∧ b'.dx = .nan ∧ b'.dz = .nan) ∧
      i ∈ d.bullets.map Prod.fst ∧
      (∀ ip ∈ s'.players, ip.2.inputs ≠ .nullish) ∧
      (s'.bullets.map Prod.fst).Nodup := by
  obtain ⟨b, hib, hdx, hdz⟩ := hb
  obtain ⟨r, hok, hmap⟩ := moveStep_ok_map s.players hnn
  rcases r with ⟨ps1, upd1⟩
  have hmvnd : ((Shooter.moveBullets s.bullets).1.map Prod.fst).Nodup := by
    rw [moveBullets_keys]
    exact hnd
  have hmvmem : (i, Shooter.moveBullet b) ∈ (Shooter.moveBullets s.bullets).1 := by
    rw [moveBullets_fst]
    exact List.mem_map_of_mem _ hib
  have hmv_eq : Shooter.moveBullet b = { b with x := .nan, z := .nan } :=
    moveBullet_nan b hdx hdz
  have huniq : ∀ b', (i, b') ∈ (Shooter.moveBullets s.bullets).1 →
      b' = Shooter.moveBullet b := by
    intro b' hb'
    exact mem_unique_of_nodup_keys _ hmvnd i b' (Shooter.moveBullet b) hb' hmvmem
  have hnotoob : i ∉ (Shooter.moveBullets s.bullets).2 := by
    intro hi
    obtain ⟨b', hb1, hb2⟩ := moveBullets_rem_spec s.bullets i hi
    rw [huniq b' hb1, hmv_eq] at hb2
    rw [oobBullet_nan _ rfl rfl] at hb2
    exact Bool.noConfusion hb2
  have hnotrem : i ∉ (Shooter.collidePass rand (Shooter.moveBullets s.bullets).1 ps1
      (Shooter.moveBullets s.bullets).2 upd1 0).2.1 := by
    refine collidePass_not_removed rand _ ps1 _ upd1 0 i hnotoob ?_
    intro b' hb'
    rw [huniq b' hb', hmv_eq]
  rcases hgl : Shooter.gameLoopE s rand with e | ds
  · exfalso
    unfold Shooter.gameLoopE at hgl
    rw [hok] at hgl
    exact Except.noConfusion hgl
  · obtain ⟨d, s'⟩ := ds
    unfold Shooter.gameLoopE at hgl
    rw [hok] at hgl
    obtain ⟨hd, hs⟩ := Prod.mk.injEq .. ▸ Except.ok.inj hgl
    have hmemfinal : (i, Shooter.moveBullet b) ∈
        (Shooter.moveBullets s.bullets).1.filter
          (fun ib => decide (ib.1 ∉ (Shooter.collidePass rand
            (Shooter.moveBullets s.bullets).1 ps1
            (Shooter.moveBullets s.bullets).2 upd1 0).2.1)) := by
      rw [List.mem_filter]
      exact ⟨hmvmem, by simpa using hnotrem⟩
    refine ⟨d, s', rfl, ?_, ?_, ?_, ?_⟩
    · refine ⟨Shooter.moveBullet b, ?_, ?_, ?_⟩
      · rw [← hs]
        exact hmemfinal
      · rw [hmv_eq]
        exact hdx
      · rw [hmv_eq]
        exact hdz
    · rw [← hd]
      exact List.mem_map_of_mem Prod.fst hmemfinal
    · intro ip hip
      rw [← hs] at hip
      have hnn1 : ∀ ip ∈ ps1, ip.2.inputs ≠ .nullish := by
        intro iq hiq
        rw [show (ps1, upd1).1 = ps1 from rfl] at hmap
        rw [hmap] at hiq
        obtain ⟨iq0, hiq0, hiq1⟩ := List.mem_map.mp hiq
        rw [← hiq1]
        rw [(moveOne_spec iq0.2).2.2.1]
        exact hnn iq0 hiq0
      refine collidePass_pointwise (fun p => p.inputs ≠ .nullish) rand
        (fun p k' hp => ?_) _ ps1 _ _ 0 hnn1 ip hip
      show (Shooter.damagePlayer p rand k').1.inputs ≠ JsInputs.nullish
      rw [damagePlayer_inputs p rand k']
      exact hp
    · rw [← hs]
      refine List.Nodup.sublist ?_ hmvnd
      exact List.Sublist.map Prod.fst (List.filter_sublist _)

/-- **C10** — a projectile whose direction components are NaN (exactly
    what a `'shoot'` whose target equals its start produces: both
    components are `0 / Math.sqrt 0 = 0/0`) is never removed by any
    subsequent tick: NaN makes the out-of-bounds comparisons and the
    circle-overlap distance comparison false, so the projectile remains
    in world state after every number of ticks, with NaN direction, and
    is included in every subsequent broadcast delta. -/
theorem c10_nan_bullet_persists_forever (s : Shooter.ServerState) (rands : ℕ → ℕ → ℚ)
    (i : Nat) (b : Shooter.BulletS)
    (hib : (i, b) ∈ s.bullets) (hdx : b.dx = .nan) (hdz : b.dz = .nan)
    (hnn : ∀ ip ∈ s.players, ip.2.inputs ≠ .nullish)
    (hnd : (s.bullets.map Prod.fst).Nodup) :
    (∀ (st : Shooter.ServerState) (sid : String) (p : Shooter.PlayerS) (q1 q2 : ℚ),
      st.players.lookup sid = some p → ¬ p.hp ≤ 0 →
      ∃ bl, (Shooter.shootH st sid (.num q1) (.num q2) (.num q1) (.num q2)).bullets
          = st.bullets ++ [(st.bulletIdCounter, bl)] ∧ bl.dx = .nan ∧ bl.dz = .nan) ∧
    (∀ n, ∃ sn, Shooter.runTicksE s rands n = .ok sn ∧
      (∃ bn, (i, bn) ∈ sn.bullets ∧ bn.dx = .nan ∧ bn.dz = .nan) ∧
      ∃ d s', Shooter.gameLoopE sn (rands n) = .ok (d, s') ∧
        i ∈ d.bullets.map Prod.fst) := by
  constructor
  · intro st sid p q1 q2 hlook hhp
    refine ⟨{ ownerId := sid, x := .num q1, z := .num q2,
              dx := jsDiv (jsSub (.num q1) (.num q1))
                          (jsSqrt (jsAdd (jsMul (jsSub (.num q1) (.num q1)) (jsSub (.num q1) (.num q1)))
                                         (jsMul (jsSub (.num q2) (.num q2)) (jsSub (.num q2) (.num q2))))),
              dz := jsDiv (jsSub (.num q2) (.num q2))
                          (jsSqrt (jsAdd (jsMul (jsSub (.num q1) (.num q1)) (jsSub (.num q1) (.num q1)))
                                         (jsMul (jsSub (.num q2) (.num q2)) (jsSub (.num q2) (.num q2))))),
              color := p.color }, ?_, ?_, ?_⟩
    · unfold Shooter.shootH
      rw [hlook]
      simp only [if_neg hhp]
    · norm_num
    · norm_num
  · have inv : ∀ n, ∃ sn, Shooter.runTicksE s rands n = .ok sn ∧
        (∃ bn, (i, bn) ∈ sn.bullets ∧ bn.dx = .nan ∧ bn.dz = .nan) ∧
        (∀ ip ∈ sn.players, ip.2.inputs ≠ .nullish) ∧
        (sn.bullets.map Prod.fst).Nodup := by
      intro n
      induction n with
      | zero => exact ⟨s, rfl, ⟨b, hib, hdx, hdz⟩, hnn, hnd⟩
      | succ m ihm =>
        obtain ⟨sm, hrun, hbm, hnnm, hndm⟩ := ihm
        obtain ⟨d, s', hgl, hb', _, hnn', hnd'⟩ :=
          gameLoop_nan_bullet_step sm (rands m) i hnnm hndm hbm
        refine ⟨s', ?_, hb', hnn', hnd'⟩
        simp only [Shooter.runTicksE, hrun, hgl]
    intro n
    obtain ⟨sn, hrun, hbn, hnnn, hndn⟩ := inv n
    obtain ⟨d, s', hgl, _, hid, _, _⟩ :=
      gameLoop_nan_bullet_step sn (rands n) i hnnn hndn hbn
    exact ⟨sn, hrun, hbn, d, s', hgl, hid⟩

/-- **C10 witness** — the theorem applied to a one-player,
    one-NaN-bullet state, after three ticks. -/
theorem c10_nan_bullet_witness :
    ∃ sn, Shooter.runTicksE fxNanState (fun _ _ => 1/2) 3 = .ok sn ∧
      (∃ bn, (7, bn) ∈ sn.bullets ∧ bn.dx = .nan ∧ bn.dz = .nan) ∧
      ∃ d s', Shooter.gameLoopE sn (fun _ => 1/2) = .ok (d, s') ∧
        (7 : ℕ) ∈ d.bullets.map Prod.fst :=
  (c10_nan_bullet_persists_forever fxNanState
    (fun _ _ => 1/2) 7 fxNanBullet
    (List.mem_singleton.mpr rfl) rfl rfl
    (by decide) (by decide)).2 3

/-- Lookup of a key in an association list with nodup keys returns the
    member record. -/
theorem lookup_of_mem_nodup {β : Type} (l : List (String × β))
    (h : (l.map Prod.fst).Nodup) (k : String) (v : β) (hm : (k, v) ∈ l) :
    l.lookup k = some v := by
  induction l with
  | nil => simp at hm
  | cons hd tl ih =>
    obtain ⟨k0, v0⟩ := hd
    rw [List.map_cons, List.nodup_cons] at h
    rcases List.mem_cons.mp hm with e1 | m1
    · have hk : k = k0 := congrArg Prod.fst e1
      have hv : v = v0 := congrArg Prod.snd e1
      subst hk
      subst hv
      simp [List.lookup_cons]
    · have hk : ¬ k = k0 := by
        intro hc
        subst hc
        exact h.1 (by simpa using List.mem_map_of_mem Prod.fst m1)
      simp [List.lookup_cons, beq_false_of_ne (Ne.symm (fun hc => hk hc.symm)), ih h.2 m1]

/-- Looking up a non-attacker key through the sword branch's pointwise
    map gives the struck version of the stored record. -/
theorem lookup_map_sword {α : Type} (ps : List (String × α)) (sid tid : String)
    (hne : tid ≠ sid) (v : α) (f : α → α) :
    (ps.map (fun ip => if ip.1 = sid then (ip.1, v) else (ip.1, f ip.2))).lookup tid =
      (ps.lookup tid).map f := by
  induction ps with
  | nil => rfl
  | cons hd tl ih =>
    obtain ⟨k, w⟩ := hd
    by_cases hk : k = sid
    · subst hk
      have : (tid == k) = false := beq_false_of_ne hne
      simp [List.lookup_cons, this, ih]
    · by_cases hk2 : k = tid
      · subst hk2
        simp [List.lookup_cons, hk]
      · have : (tid == k) = false := beq_false_of_ne (fun hc => hk2 hc.symm)
        simp [List.lookup_cons, hk, this, ih]

/-- A target failing either the range or the arc test is untouched by
    the sword strike. -/
theorem swordStrikeTarget_eq_self (atk : Arena.Player2) (fa : ℝ) (t : Arena.Player2)
    (h : ¬((t.x - atk.x)^2 + (t.y - atk.y)^2 <
          (Arena.PLAYER_RADIUS + Arena.MELEE_RANGE)^2 ∧
        |Arena.normAngle (fa - Arena.jsAtan2 (t.y - atk.y) (t.x - atk.x))| <
          Arena.MELEE_ARC / 2)) :
    Arena.swordStrikeTarget atk fa t = t := by
  unfold Arena.swordStrikeTarget
  by_cases h1 : (t.x - atk.x)^2 + (t.y - atk.y)^2 <
      (Arena.PLAYER_RADIUS + Arena.MELEE_RANGE)^2
  · rw [if_pos h1]
    have h2 : ¬ |Arena.normAngle (fa - Arena.jsAtan2 (t.y - atk.y) (t.x - atk.x))| <
        Arena.MELEE_ARC / 2 := fun hc => h ⟨h1, hc⟩
    rw [if_neg h2]
  · rw [if_neg h1]

/-- A target passing both tests is changed by the sword strike: its hp
    drops by `MELEE_DAMAGE`, or it is respawned with full hp — either
    way the record differs. -/
theorem swordStrikeTarget_ne_self (atk : Arena.Player2) (fa : ℝ) (t : Arena.Player2)
    (h : (t.x - atk.x)^2 + (t.y - atk.y)^2 <
          (Arena.PLAYER_RADIUS + Arena.MELEE_RANGE)^2 ∧
        |Arena.normAngle (fa - Arena.jsAtan2 (t.y - atk.y) (t.x - atk.x))| <
          Arena.MELEE_ARC / 2) :
    Arena.swordStrikeTarget atk fa t ≠ t := by
  unfold Arena.swordStrikeTarget
  rw [if_pos h.1, if_pos h.2]
  by_cases hz : t.hp - Arena.MELEE_DAMAGE ≤ 0
  · rw [if_pos (by simpa using hz)]
    intro hc
    have hhp : Arena.PLAYER_MAX_HP = t.hp := congrArg Arena.Player2.hp hc
    rw [← hhp] at hz
    norm_num [Arena.PLAYER_MAX_HP, Arena.MELEE_DAMAGE] at hz
  · rw [if_neg (by simpa using hz)]
    intro hc
    have hhp : t.hp - Arena.MELEE_DAMAGE = t.hp := congrArg Arena.Player2.hp hc
    norm_num [Arena.MELEE_DAMAGE] at hhp

/-- **C8 counterexample** — a target at distance exactly
    `PLAYER_RADIUS + MELEE_RANGE = 35`, dead ahead of the attacker's
    facing, is NOT hit by the code (the source tests `dist < 35`,
    strictly), while the claim's condition (`distance ≤ 35` and zero
    angular difference, well inside the arc) holds — refuting the
    claimed "if and only if" with a non-strict range comparison. -/
theorem c8_boundary_distance_counterexample :
    (Arena.swordAttackH [("A", fxSwordAttacker), ("B", fxSwordBoundary)] "A").lookup "B"
      = some fxSwordBoundary ∧
    (fxSwordBoundary.x - fxSwordAttacker.x)^2 + (fxSwordBoundary.y - fxSwordAttacker.y)^2
      ≤ (Arena.PLAYER_RADIUS + Arena.MELEE_RANGE)^2 ∧
    |Arena.normAngle (Arena.jsAtan2 (fxSwordAttacker.targetY - fxSwordAttacker.y)
        (fxSwordAttacker.targetX - fxSwordAttacker.x) -
      Arena.jsAtan2 (fxSwordBoundary.y - fxSwordAttacker.y)
        (fxSwordBoundary.x - fxSwordAttacker.x))| < Arena.MELEE_ARC / 2 := by
  have hcd : fxSwordAttacker.meleeCooldown ≤ 0 := by
    norm_num [fxSwordAttacker, fxArenaBase]
  refine ⟨?_, ?_, ?_⟩
  · unfold Arena.swordAttackH
    rw [show List.lookup "A" [("A", fxSwordAttacker), ("B", fxSwordBoundary)]
        = some fxSwordAttacker from rfl]
    simp only [if_pos hcd]
    rw [lookup_map_sword _ "A" "B" (by decide)]
    rw [show List.lookup "B" [("A", fxSwordAttacker), ("B", fxSwordBoundary)]
        = some fxSwordBoundary from rfl]
    rw [Option.map_some']
    rw [swordStrikeTarget_eq_self]
    rintro ⟨h1, _⟩
    norm_num [fxSwordBoundary, fxSwordAttacker, fxArenaBase,
      Arena.PLAYER_RADIUS, Arena.MELEE_RANGE] at h1
  · norm_num [fxSwordBoundary, fxSwordAttacker, fxArenaBase,
      Arena.PLAYER_RADIUS, Arena.MELEE_RANGE]
  · have harg : (fxSwordAttacker.targetY - fxSwordAttacker.y
        = fxSwordBoundary.y - fxSwordAttacker.y) ∧
        (fxSwordAttacker.targetX - fxSwordAttacker.x
        = fxSwordBoundary.x - fxSwordAttacker.x) := by
      norm_num [fxSwordBoundary, fxSwordAttacker, fxArenaBase]
    rw [harg.1, harg.2, sub_self]
    have hnorm : Arena.normAngle 0 = 0 := by
      unfold Arena.normAngle
      rw [if_neg (by simp [Real.pi_pos.le] : ¬ (0:ℝ) > Real.pi)]
      rw [if_neg (by simp [Real.pi_pos.le] : ¬ (0:ℝ) < -Real.pi)]
    rw [hnorm]
    simp only [abs_zero, Arena.MELEE_ARC]
    positivity

/-- **C8 (amended)** — for a secondary attack with elapsed cooldown,
    another live player is hit (its stored record changes) iff both
    (distance **strictly less than** attacker radius + melee range) and
    (|normalized angular difference| strictly less than half the arc);
    the boundary cases — distance exactly 35 as well as angular
    difference exactly ±π/4 — are always misses. -/
theorem c8_melee_hit_iff_strict (ps : List (String × Arena.Player2)) (sid tid : String)
    (a t : Arena.Player2) (hne : tid ≠ sid) (hnd : (ps.map Prod.fst).Nodup)
    (hlook : ps.lookup sid = some a) (hcd : a.meleeCooldown ≤ 0)
    (hmem : (tid, t) ∈ ps) :
    ((Arena.swordAttackH ps sid).lookup tid ≠ some t) ↔ Arena.meleeHitCond a t := by
  unfold Arena.swordAttackH
  rw [hlook]
  simp only [if_pos hcd]
  rw [lookup_map_sword ps sid tid hne]
  rw [lookup_of_mem_nodup ps hnd tid t hmem]
  rw [Option.map_some']
  constructor
  · intro hne2
    by_contra hnc
    exact hne2 (congrArg some (swordStrikeTarget_eq_self _ _ _ (fun hc => hnc hc)))
  · intro hcond hc
    exact swordStrikeTarget_ne_self _ _ _ hcond (Option.some.inj hc)

/-- **C8 witness** — the amended characterization applied to a
    concrete attacker/target pair with the target 20 px ahead. -/
theorem c8_melee_hit_iff_witness :
    ((Arena.swordAttackH [("A", fxSwordAttacker), ("B", fxSwordNear)] "A").lookup "B"
        ≠ some fxSwordNear) ↔ Arena.meleeHitCond fxSwordAttacker fxSwordNear :=
  c8_melee_hit_iff_strict _ "A" "B" fxSwordAttacker fxSwordNear (by decide) (by decide)
    rfl (by norm_num [fxSwordAttacker, fxArenaBase])
    (List.mem_cons_of_mem _ (List.mem_singleton.mpr rfl))

/-- A scan that reports no hit leaves the player list untouched. -/
theorem hitScan_none_eq (owner : String) (b : Shooter.BulletS) (rand : ℕ → ℚ) :
    ∀ (ps : List (String × Shooter.PlayerS)) (k : ℕ),
      (Shooter.hitScan owner b rand k ps).2.1 = none →
      (Shooter.hitScan owner b rand k ps).1 = ps := by
  intro ps
  induction ps with
  | nil => intro k _; rfl
  | cons hd tl ih =>
    intro k hnone
    obtain ⟨pid, p⟩ := hd
    by_cases howner : pid = owner
    · rcases hr : Shooter.hitScan owner b rand k tl with ⟨ps', opt, k2⟩
      rw [Shooter.hitScan, if_pos howner, hr] at hnone ⊢
      have hopt : opt = none := hnone
      subst hopt
      have htl := ih k
      rw [hr] at htl
      exact congrArg (fun l => (pid, p) :: l) (htl rfl)
    · by_cases hhit : jsSqrtLt
          (jsAdd (jsMul (jsSub b.x p.x) (jsSub b.x p.x))
                 (jsMul (jsSub b.z p.z) (jsSub b.z p.z)))
          (.num (Shooter.PLAYER_RADIUS + Shooter.BULLET_RADIUS)) = true
      · rw [Shooter.hitScan, if_neg howner, if_pos hhit] at hnone
        exact Option.noConfusion hnone
      · rcases hr : Shooter.hitScan owner b rand k tl with ⟨ps', opt, k2⟩
        rw [Shooter.hitScan, if_neg howner, if_neg hhit, hr] at hnone ⊢
        have hopt : opt = none := hnone
        subst hopt
        have htl := ih k
        rw [hr] at htl
        exact congrArg (fun l => (pid, p) :: l) (htl rfl)

/-- A scan that reports a hit replaces exactly one record — the first
    overlapping non-owner player — with its damaged version and leaves
    every other record in place (`break` semantics). -/
theorem hitScan_some_decomp (owner : String) (b : Shooter.BulletS) (rand : ℕ → ℚ) :
    ∀ (ps : List (String × Shooter.PlayerS)) (k : ℕ) (pid : String),
      (Shooter.hitScan owner b rand k ps).2.1 = some pid →
      ∃ l1 p l2, ps = l1 ++ (pid, p) :: l2 ∧
        (Shooter.hitScan owner b rand k ps).1 =
          l1 ++ (pid, (Shooter.damagePlayer p rand k).1) :: l2 := by
  intro ps
  induction ps with
  | nil => intro k pid h; exact Option.noConfusion h
  | cons hd tl ih =>
    intro k pid hsome
    obtain ⟨pid0, p0⟩ := hd
    by_cases howner : pid0 = owner
    · rcases hr : Shooter.hitScan owner b rand k tl with ⟨ps', opt, k2⟩
      rw [Shooter.hitScan, if_pos howner, hr] at hsome ⊢
      have hopt : opt = some pid := hsome
      subst hopt
      have htl := ih k pid
      rw [hr] at htl
      obtain ⟨l1, p, l2, hsplit, hres⟩ := htl rfl
      refine ⟨(pid0, p0) :: l1, p, l2, by rw [hsplit]; rfl, ?_⟩
      show (pid0, p0) :: ps' = (pid0, p0) :: (l1 ++ (pid, (Shooter.damagePlayer p rand k).1) :: l2)
      exact congrArg (fun l => (pid0, p0) :: l) hres
    · by_cases hhit : jsSqrtLt
          (jsAdd (jsMul (jsSub b.x p0.x) (jsSub b.x p0.x))
                 (jsMul (jsSub b.z p0.z) (jsSub b.z p0.z)))
          (.num (Shooter.PLAYER_RADIUS + Shooter.BULLET_RADIUS)) = true
      · rw [Shooter.hitScan, if_neg howner, if_pos hhit] at hsome ⊢
        have hpid : pid0 = pid := Option.some.inj hsome
        subst hpid
        exact ⟨[], p0, tl, rfl, rfl⟩
      · rcases hr : Shooter.hitScan owner b rand k tl with ⟨ps', opt, k2⟩
        rw [Shooter.hitScan, if_neg howner, if_neg hhit, hr] at hsome ⊢
        have hopt : opt = some pid := hsome
        subst hopt
        have htl := ih k pid
        rw [hr] at htl
        obtain ⟨l1, p, l2, hsplit, hres⟩ := htl rfl
        refine ⟨(pid0, p0) :: l1, p, l2, by rw [hsplit]; rfl, ?_⟩
        show (pid0, p0) :: ps' = (pid0, p0) :: (l1 ++ (pid, (Shooter.damagePlayer p rand k).1) :: l2)
        exact congrArg (fun l => (pid0, p0) :: l) hres

/-- The collision pass only ever appends to the removal list. -/
theorem collidePass_rem_mono (rand : ℕ → ℚ) :
    ∀ (bs : List (Nat × Shooter.BulletS)) (ps : List (String × Shooter.PlayerS))
      (rem : List Nat) (upd : List String) (k : ℕ),
      rem ⊆ (Shooter.collidePass rand bs ps rem upd k).2.1 := by
  intro bs
  induction bs with
  | nil => intro ps rem upd k; exact List.Subset.refl rem
  | cons hd tl ih =>
    intro ps rem upd k
    obtain ⟨i, b⟩ := hd
    by_cases hrem : i ∈ rem
    · rw [Shooter.collidePass, if_pos hrem]
      exact ih ps rem upd k
    · rcases hr2 : Shooter.hitScan b.ownerId b rand k ps with ⟨ps', opt, k2⟩
      rcases opt with _ | pid
      · rw [Shooter.collidePass, if_neg hrem, hr2]
        exact ih ps' rem upd k2
      · rw [Shooter.collidePass, if_neg hrem, hr2]
        exact List.Subset.trans (List.subset_append_left rem [i])
          (ih ps' (rem ++ [i]) (Shooter.addKey upd pid) k2)

/-- Every moved bullet that is out of bounds is flagged by the
    movement pass. -/
theorem moveBullets_oob_mem (bs : List (Nat × Shooter.BulletS)) :
    ∀ ib ∈ (Shooter.moveBullets bs).1, Shooter.oobBullet ib.2 = true →
      ib.1 ∈ (Shooter.moveBullets bs).2 := by
  induction bs with
  | nil => intro ib hib; simp [Shooter.moveBullets] at hib
  | cons hd tl ih =>
    intro ib hib hoob
    obtain ⟨j, b⟩ := hd
    simp only [Shooter.moveBullets] at hib ⊢
    rcases List.mem_cons.mp hib with h1 | h2
    · subst h1
      rw [if_pos hoob]
      exact List.mem_cons_self _ _
    · by_cases hj : Shooter.oobBullet (Shooter.moveBullet b) = true
      · rw [if_pos hj]
        exact List.mem_cons_of_mem _ (ih ib h2 hoob)
      · rw [if_neg hj]
        exact ih ib h2 hoob

/-- The flagged-removal list of the movement pass is a sublist of the
    bullet key list. -/
theorem moveBullets_rem_sublist (bs : List (Nat × Shooter.BulletS)) :
    (Shooter.moveBullets bs).2.Sublist (bs.map Prod.fst) := by
  induction bs with
  | nil => simp [Shooter.moveBullets]
  | cons hd tl ih =>
    obtain ⟨j, b⟩ := hd
    simp only [Shooter.moveBullets, List.map_cons]
    by_cases hj : Shooter.oobBullet (Shooter.moveBullet b) = true
    · rw [if_pos hj]
      exact List.Sublist.cons₂ j ih
    · rw [if_neg hj]
      exact List.Sublist.cons j ih

/-- The collision pass keeps its removal list duplicate-free: an id is
    appended only after the `includes` check found it absent. -/
theorem collidePass_rem_nodup (rand : ℕ → ℚ) :
    ∀ (bs : List (Nat × Shooter.BulletS)) (ps : List (String × Shooter.PlayerS))
      (rem : List Nat) (upd : List String) (k : ℕ), rem.Nodup →
      (Shooter.collidePass rand bs ps rem upd k).2.1.Nodup := by
  intro bs
  induction bs with
  | nil => intro ps rem upd k h; exact h
  | cons hd tl ih =>
    intro ps rem upd k h
    obtain ⟨i, b⟩ := hd
    by_cases hrem : i ∈ rem
    · rw [Shooter.collidePass, if_pos hrem]
      exact ih ps rem upd k h
    · rcases hr2 : Shooter.hitScan b.ownerId b rand k ps with ⟨ps', opt, k2⟩
      rcases opt with _ | pid
      · rw [Shooter.collidePass, if_neg hrem, hr2]
        exact ih ps' rem upd k2 h
      · rw [Shooter.collidePass, if_neg hrem, hr2]
        refine ih ps' (rem ++ [i]) (Shooter.addKey upd pid) k2 ?_
        simpa [List.nodup_append] using ⟨h, hrem⟩

/-- The collision pass ignores bullets already flagged for removal:
    running it on the list with those bullets filtered out gives the
    same result (`removedBullets.includes` skip semantics).  Requires
    duplicate-free bullet keys (true of JS object keys). -/
theorem collidePass_skip (rand : ℕ → ℚ) :
    ∀ (bs : List (Nat × Shooter.BulletS)) (ps : List (String × Shooter.PlayerS))
      (rem : List Nat) (upd : List String) (k : ℕ), (bs.map Prod.fst).Nodup →
      Shooter.collidePass rand bs ps rem upd k =
        Shooter.collidePass rand (bs.filter (fun ib => decide (ib.1 ∉ rem))) ps rem upd k := by
  intro bs
  induction bs with
  | nil => intro ps rem upd k _; rfl
  | cons hd tl ih =>
    intro ps rem upd k hnd
    obtain ⟨i, b⟩ := hd
    rw [List.map_cons, List.nodup_cons] at hnd
    have hitl : i ∉ tl.map Prod.fst := hnd.1
    by_cases hrem : i ∈ rem
    · rw [List.filter_cons_of_neg (by simpa using hrem)]
      rw [Shooter.collidePass, if_pos hrem]
      exact ih ps rem upd k hnd.2
    · rw [List.filter_cons_of_pos (by simpa using hrem)]
      rcases hr : Shooter.hitScan b.ownerId b rand k ps with ⟨ps', opt, k2⟩
      rcases opt with _ | pid
      · rw [Shooter.collidePass, if_neg hrem, hr]
        rw [show Shooter.collidePass rand ((i, b) :: tl.filter (fun ib => decide (ib.1 ∉ rem)))
              ps rem upd k = Shooter.collidePass rand (tl.filter (fun ib => decide (ib.1 ∉ rem)))
              ps' rem upd k2 from by rw [Shooter.collidePass, if_neg hrem, hr]]
        show Shooter.collidePass rand tl ps' rem upd k2 =
          Shooter.collidePass rand (tl.filter (fun ib => decide (ib.1 ∉ rem))) ps' rem upd k2
        exact ih ps' rem upd k2 hnd.2
      · rw [Shooter.collidePass, if_neg hrem, hr]
        rw [show Shooter.collidePass rand ((i, b) :: tl.filter (fun ib => decide (ib.1 ∉ rem)))
              ps rem upd k = Shooter.collidePass rand (tl.filter (fun ib => decide (ib.1 ∉ rem)))
              ps' (rem ++ [i]) (Shooter.addKey upd pid) k2 from by
            rw [Shooter.collidePass, if_neg hrem, hr]]
        have hfeq : tl.filter (fun ib => decide (ib.1 ∉ rem ++ [i]))
            = tl.filter (fun ib => decide (ib.1 ∉ rem)) := by
          apply List.filter_congr
          intro x hx
          have hxi : x.1 ≠ i := fun hc => hitl (hc ▸ List.mem_map_of_mem Prod.fst hx)
          simp [List.mem_append, hxi]
        show Shooter.collidePass rand tl ps' (rem ++ [i]) (Shooter.addKey upd pid) k2 =
          Shooter.collidePass rand (tl.filter (fun ib => decide (ib.1 ∉ rem))) ps'
            (rem ++ [i]) (Shooter.addKey upd pid) k2
        rw [ih ps' (rem ++ [i]) (Shooter.addKey upd pid) k2 hnd.2, hfeq]

/-- A flagged id never survives the cleanup filter. -/
theorem mem_removed_not_in_filtered (mv : List (Nat × Shooter.BulletS)) (rem : List Nat)
    (i : Nat) (hi : i ∈ rem) :
    i ∉ (mv.filter (fun ib => decide (ib.1 ∉ rem))).map Prod.fst := by
  intro hmem
  obtain ⟨ib, hib, hfst⟩ := List.mem_map.mp hmem
  have hp := List.of_mem_filter hib
  rw [hfst] at hp
  simp at hp
  exact hp hi

/-- **C6** — projectile removal lifecycle, per tick: (i) the hit scan
    damages at most one player per bullet — a scan reporting no hit
    leaves the players untouched, and a scan reporting a hit replaces
    exactly one record (the `break` semantics), so a bullet resolves
    against at most one target per tick and, being deleted the same
    tick (below), at most one target ever; (ii) every moved bullet
    satisfying the out-of-bounds predicate this tick is flagged and
    absent from the post-tick world; (iii) out-of-bounds bullets are
    skipped by the collision pass (running the pass on the list with
    them filtered out is identical), so only the first-detected
    condition is credited; (iv) the removal list is duplicate-free —
    each bullet is removed exactly once; (v) cleanup removes exactly
    the flagged bullets, and every flagged id is absent from the
    post-tick bullet collection and the broadcast delta. -/
theorem c6_projectile_removal_lifecycle (s : Shooter.ServerState) (rand : ℕ → ℚ)
    (hnn : ∀ ip ∈ s.players, ip.2.inputs ≠ .nullish)
    (hnd : (s.bullets.map Prod.fst).Nodup) :
    (∀ (owner : String) (b : Shooter.BulletS) (rn : ℕ → ℚ) (k : ℕ)
      (ps : List (String × Shooter.PlayerS)),
      ((Shooter.hitScan owner b rn k ps).2.1 = none →
        (Shooter.hitScan owner b rn k ps).1 = ps) ∧
      (∀ pid, (Shooter.hitScan owner b rn k ps).2.1 = some pid →
        ∃ l1 p l2, ps = l1 ++ (pid, p) :: l2 ∧
          (Shooter.hitScan owner b rn k ps).1 =
            l1 ++ (pid, (Shooter.damagePlayer p rn k).1) :: l2)) ∧
    ∃ ps1 upd1 ps2 rem2 upd2 k2,
      Shooter.moveStep s.players = .ok (ps1, upd1) ∧
      Shooter.collidePass rand (Shooter.moveBullets s.bullets).1 ps1
          (Shooter.moveBullets s.bullets).2 upd1 0 = (ps2, rem2, upd2, k2) ∧
      (∀ ib ∈ (Shooter.moveBullets s.bullets).1, Shooter.oobBullet ib.2 = true →
        ib.1 ∈ rem2) ∧
      (Shooter.collidePass rand (Shooter.moveBullets s.bullets).1 ps1
          (Shooter.moveBullets s.bullets).2 upd1 0 =
        Shooter.collidePass rand ((Shooter.moveBullets s.bullets).1.filter
          (fun ib => decide (ib.1 ∉ (Shooter.moveBullets s.bullets).2))) ps1
          (Shooter.moveBullets s.bullets).2 upd1 0) ∧
      rem2.Nodup ∧
      Shooter.gameLoopE s rand = .ok
        ({ updates := upd2, newIds := s.newPlayers, removed := s.removedPlayers,
           bullets := (Shooter.moveBullets s.bullets).1.filter
                        (fun ib => decide (ib.1 ∉ rem2)) },
         { s with players := ps2,
                  bullets := (Shooter.moveBullets s.bullets).1.filter
                               (fun ib => decide (ib.1 ∉ rem2)),
                  newPlayers := [], removedPlayers := [] }) ∧
      (∀ i ∈ rem2, i ∉ ((Shooter.moveBullets s.bullets).1.filter
        (fun ib => decide (ib.1 ∉ rem2))).map Prod.fst) := by
  refine ⟨fun owner b rn k ps => ⟨hitScan_none_eq owner b rn ps k,
    fun pid => hitScan_some_decomp owner b rn ps k pid⟩, ?_⟩
  obtain ⟨r, hok, _⟩ := moveStep_ok_map s.players hnn
  rcases r with ⟨ps1, upd1⟩
  rcases hcoll : Shooter.collidePass rand (Shooter.moveBullets s.bullets).1 ps1
      (Shooter.moveBullets s.bullets).2 upd1 0 with ⟨ps2, rem2, upd2, k2⟩
  refine ⟨ps1, upd1, ps2, rem2, upd2, k2, hok, hcoll, ?_, ?_, ?_, ?_, ?_⟩
  · intro ib hib hoob
    have h1 : ib.1 ∈ (Shooter.moveBullets s.bullets).2 :=
      moveBullets_oob_mem s.bullets ib hib hoob
    have h2 := collidePass_rem_mono rand (Shooter.moveBullets s.bullets).1 ps1
      (Shooter.moveBullets s.bullets).2 upd1 0
    rw [hcoll] at h2
    exact h2 h1
  · exact collidePass_skip rand _ ps1 _ upd1 0 (by rw [moveBullets_keys]; exact hnd)
  · have hnr := collidePass_rem_nodup rand (Shooter.moveBullets s.bullets).1 ps1
      (Shooter.moveBullets s.bullets).2 upd1 0
      (List.Nodup.sublist (moveBullets_rem_sublist s.bullets) hnd)
    rw [hcoll] at hnr
    exact hnr
  · unfold Shooter.gameLoopE
    rw [hok]
    simp only [hcoll]
  · intro i hi
    exact mem_removed_not_in_filtered _ rem2 i hi

/-- **C6 witness** — the lifecycle theorem applied to a concrete
    one-player, one-bullet state. -/
theorem c6_lifecycle_witness :
    (∀ (owner : String) (b : Shooter.BulletS) (rn : ℕ → ℚ) (k : ℕ)
      (ps : List (String × Shooter.PlayerS)),
      ((Shooter.hitScan owner b rn k ps).2.1 = none →
        (Shooter.hitScan owner b rn k ps).1 = ps) ∧
      (∀ pid, (Shooter.hitScan owner b rn k ps).2.1 = some pid →
        ∃ l1 p l2, ps = l1 ++ (pid, p) :: l2 ∧
          (Shooter.hitScan owner b rn k ps).1 =
            l1 ++ (pid, (Shooter.damagePlayer p rn k).1) :: l2)) ∧
    ∃ ps1 upd1 ps2 rem2 upd2 k2,
      Shooter.moveStep fxOneBulletState.players = .ok (ps1, upd1) ∧
      Shooter.collidePass (fun _ => 1/2) (Shooter.moveBullets fxOneBulletState.bullets).1 ps1
          (Shooter.moveBullets fxOneBulletState.bullets).2 upd1 0 = (ps2, rem2, upd2, k2) ∧
      (∀ ib ∈ (Shooter.moveBullets fxOneBulletState.bullets).1, Shooter.oobBullet ib.2 = true →
        ib.1 ∈ rem2) ∧
      (Shooter.collidePass (fun _ => 1/2) (Shooter.moveBullets fxOneBulletState.bullets).1 ps1
          (Shooter.moveBullets fxOneBulletState.bullets).2 upd1 0 =
        Shooter.collidePass (fun _ => 1/2) ((Shooter.moveBullets fxOneBulletState.bullets).1.filter
          (fun ib => decide (ib.1 ∉ (Shooter.moveBullets fxOneBulletState.bullets).2))) ps1
          (Shooter.moveBullets fxOneBulletState.bullets).2 upd1 0) ∧
      rem2.Nodup ∧
      Shooter.gameLoopE fxOneBulletState (fun _ => 1/2) = .ok
        ({ updates := upd2, newIds := fxOneBulletState.newPlayers,
           removed := fxOneBulletState.removedPlayers,
           bullets := (Shooter.moveBullets fxOneBulletState.bullets).1.filter
                        (fun ib => decide (ib.1 ∉ rem2)) },
         { fxOneBulletState with
            players := ps2,
            bullets := (Shooter.moveBullets fxOneBulletState.bullets).1.filter
                         (fun ib => decide (ib.1 ∉ rem2)),
            newPlayers := [], removedPlayers := [] }) ∧
      (∀ i ∈ rem2, i ∉ ((Shooter.moveBullets fxOneBulletState.bullets).1.filter
        (fun ib => decide (ib.1 ∉ rem2))).map Prod.fst) :=
  c6_projectile_removal_lifecycle fxOneBulletState (fun _ => 1/2) (by decide) (by decide)
